import Mathlib

/-!
Shallow embedding of the request-orchestration layer of the AI_APP chat
front-end, together with proofs about its documented behaviour.

Sources embedded here:
- `api/generate.js` : the POST handler, `buildRequestBody` and the
  sanitisation helpers (model fallback, parameter aliasing);
- `src/App.jsx` : `estimateBase64Bytes`, `collectImages`,
  `buildGeminiParts`, `uploadAttachmentsToStorage`,
  `classifyStorageError`, `serializeMessagesForStorage` and the
  send-message pipeline prefix;
- the `Chat` component file holding the image transcoder
  (`generateCompressedBase64`, `processImageFile`).

JavaScript strings are modelled as Lean `String`, JS numbers as `ℚ`
(the code never relies on float rounding except where noted in
comments), optional / missing / non-string fields as `Option`, and the
browser or network environment (decoders, canvas encoders, upload
outcomes) as explicit function-valued oracles passed to the embedded
code.  Effectful code is modelled by explicit event traces.
-/

/-! ## JavaScript string primitives -/

/-- JS whitespace class, approximated by `Char.isWhitespace` (ASCII and
common unicode space characters; the sources only ever meet ASCII). -/
def isSpaceChar (c : Char) : Bool := c.isWhitespace

/-- Character-list body of `String.prototype.trim`. -/
def trimChars (l : List Char) : List Char :=
  ((l.dropWhile isSpaceChar).reverse.dropWhile isSpaceChar).reverse

/-- `String.prototype.trim`. -/
def jsTrim (s : String) : String := ⟨trimChars s.data⟩

/-- `a.includes(b)` on strings (case sensitive substring test). -/
def strContains (hay pat : String) : Bool :=
  hay.data.tails.any (fun suf => pat.data.isPrefixOf suf)

/-- `String.prototype.toLowerCase` (ASCII case fold, which is all the
sources rely on). -/
def toLowerStr (s : String) : String := ⟨s.data.map Char.toLower⟩

/-- `s.startsWith(p)`. -/
def strStartsWith (s p : String) : Bool := p.data.isPrefixOf s.data

/-! ## `estimateBase64Bytes` (App.jsx and the Chat component; both copies
are textually identical) -/

/-- `base64.replace(new RegExp "=+$", '')` : drop every trailing `=`. -/
def stripTrailingEq (s : String) : String :=
  ⟨(s.data.reverse.dropWhile (fun c => c = '=')).reverse⟩

/-- `estimateBase64Bytes` from App.jsx lines 101-107 (and the identical
copy next to the transcoder). -/
def estimateBase64Bytes (base64 : String) : Nat :=
  if base64.length = 0 then 0
  else (stripTrailingEq base64).length * 3 / 4

/-! ## A reference base64 decoder (independent of the estimator)

Used to settle the claim that the estimator is exact: we decode the
string for real (RFC 4648, the alphabet used by `btoa` / `Buffer`) and
compare byte counts. -/

def BASE64_ALPHABET : String :=
  "ABCDEFGHIJKLMNOPQRSTUVWXYZabcdefghijklmnopqrstuvwxyz0123456789+/"

/-- Index of a character in the base64 alphabet. -/
def base64CharValue (c : Char) : Option Nat :=
  BASE64_ALPHABET.data.findIdx? (fun d => d = c)

/-- Map every character to its 6-bit value, failing on a foreign
character. -/
def mapBase64Vals : List Char → Option (List Nat)
  | [] => some []
  | c :: rest =>
    match base64CharValue c, mapBase64Vals rest with
    | some v, some vs => some (v :: vs)
    | _, _ => none

/-- Reassemble bytes from 6-bit groups, four at a time; a trailing group
of three values yields two bytes, of two values one byte (RFC 4648). -/
def decodeQuads : List Nat → List Nat
  | v1 :: v2 :: v3 :: v4 :: rest =>
      (v1 * 4 + v2 / 16) :: ((v2 % 16) * 16 + v3 / 4) ::
        ((v3 % 4) * 64 + v4) :: decodeQuads rest
  | [v1, v2, v3] => [v1 * 4 + v2 / 16, (v2 % 16) * 16 + v3 / 4]
  | [v1, v2] => [v1 * 4 + v2 / 16]
  | _ => []

/-- Decode a padded base64 string to its byte sequence. -/
def base64DecodeBytes (s : String) : Option (List Nat) :=
  (mapBase64Vals (stripTrailingEq s).data).map decodeQuads

/-- Canonical base64: length a multiple of four, at most two trailing
padding characters, and every data character drawn from the alphabet. -/
def isCanonicalBase64 (s : String) : Bool :=
  s.length % 4 = 0 &&
  (s.data.reverse.takeWhile (fun c => c = '=')).length ≤ 2 &&
  (stripTrailingEq s).data.all (fun c => (base64CharValue c).isSome)

theorem decodeQuads_length (v : List Nat) :
    (decodeQuads v).length = 3 * v.length / 4 := by
  match v with
  | [] => simp [decodeQuads]
  | [v1] => simp [decodeQuads]
  | [v1, v2] => simp [decodeQuads]
  | [v1, v2, v3] => simp [decodeQuads]
  | v1 :: v2 :: v3 :: v4 :: rest =>
    have ih := decodeQuads_length rest
    simp [decodeQuads, ih]
    omega

theorem mapBase64Vals_isSome (l : List Char)
    (h : l.all (fun c => (base64CharValue c).isSome) = true) :
    ∃ vs, mapBase64Vals l = some vs ∧ vs.length = l.length := by
  induction l with
  | nil => exact ⟨[], rfl, rfl⟩
  | cons c rest ih =>
    simp only [List.all_cons, Bool.and_eq_true] at h
    obtain ⟨vs, hvs, hlen⟩ := ih h.2
    obtain ⟨v, hv⟩ := Option.isSome_iff_exists.mp h.1
    refine ⟨v :: vs, ?_, by simp [hlen]⟩
    simp [mapBase64Vals, hv, hvs]

/-- C10: on canonical base64 input the estimator returns exactly the
decoded byte count. -/
theorem C10_estimateBase64Bytes_exact (s : String)
    (h : isCanonicalBase64 s = true) :
    ∃ bytes, base64DecodeBytes s = some bytes ∧
      bytes.length = estimateBase64Bytes s := by
  unfold isCanonicalBase64 at h
  simp only [Bool.and_eq_true, decide_eq_true_eq] at h
  obtain ⟨-, hvalid⟩ := h
  obtain ⟨vs, hvs, hlen⟩ := mapBase64Vals_isSome _ hvalid
  refine ⟨decodeQuads vs, ?_, ?_⟩
  · simp [base64DecodeBytes, hvs]
  · rw [decodeQuads_length, hlen, estimateBase64Bytes]
    by_cases h0 : s.length = 0
    · have : s.data = [] := by
        cases s with
        | mk data => simpa [String.length] using h0
      simp [h0, stripTrailingEq, this]
    · simp [h0, Nat.mul_comm]

/-- C10 witness: the canonical string "QUJD" decodes to the three bytes
of "ABC" and the estimator also answers 3. -/
theorem C10_estimateBase64Bytes_exact_witness :
    ∃ bytes, base64DecodeBytes "QUJD" = some bytes ∧
      bytes.length = estimateBase64Bytes "QUJD" :=
  C10_estimateBase64Bytes_exact "QUJD" (by decide)

/-! ## `api/generate.js` : sanitisation helpers and `buildRequestBody`

JS objects arriving in the request body are duck-typed; each embedded
record carries the exact set of fields the corresponding JS function
reads, with `Option` for absent or non-string values.  A non-array
where an array is expected sanitises to `[]` in the source and is
modelled as the empty list. -/

/-- One entry of the `images` array: `{data?, mimeType?}`. -/
structure InlineImage where
  data : Option String := none
  mimeType : Option String := none
deriving DecidableEq

/-- Output shape of `sanitizeImageParts`: `{mime_type, data}`. -/
structure SanitizedInline where
  mime_type : String
  data : String
deriving DecidableEq

/-- A character admitted by the validation regex class `[A-Za-z0-9+/]`. -/
def isBase64Char (c : Char) : Bool :=
  (c ≥ 'A' && c ≤ 'Z') || (c ≥ 'a' && c ≤ 'z') || (c ≥ '0' && c ≤ '9') ||
  c = '+' || c = '/'

/-- `rawData.replace(new RegExp whitespace-class, '')` with global flag:
remove every whitespace character. -/
def stripWhitespaceStr (s : String) : String :=
  ⟨s.data.filter (fun c => !(isSpaceChar c))⟩

/-- The validation regex of `sanitizeImageParts`: one or more base64
characters followed by at most two `=`, anchored at both ends. -/
def base64Shape (s : String) : Bool :=
  let pad := (s.data.reverse.takeWhile (fun c => c = '=')).length
  let dataPart := s.data.take (s.data.length - pad)
  pad ≤ 2 && dataPart.length > 0 && dataPart.all isBase64Char

/-- Byte count produced by the lenient Node decoder
`Buffer.from(s, 'base64')` on a string that already passed
`base64Shape`: three bytes for every four data characters, rounded
down.  The handler only compares this count with zero. -/
def bufferDecodedLen (s : String) : Nat :=
  (stripTrailingEq s).length * 3 / 4

/-- `sanitizeImageParts` body for a single entry (the source maps this
over the array and filters out the `null` results). -/
def sanitizeImagePart (image : InlineImage) : Option SanitizedInline :=
  let rawData := match image.data with
    | some d => jsTrim d
    | none => ""
  if rawData = "" then none
  else
    let normalizedData := stripWhitespaceStr rawData
    if !(base64Shape normalizedData) then none
    else if bufferDecodedLen normalizedData = 0 then none
    else
      let mimeType := match image.mimeType with
        | some m => if (jsTrim m).length > 0 then jsTrim m else "image/png"
        | none => "image/png"
      some ⟨mimeType, normalizedData⟩

/-- `sanitizeImageParts` (generate.js lines 48-92). -/
def sanitizeImageParts (rawImages : List InlineImage) : List SanitizedInline :=
  rawImages.filterMap sanitizeImagePart

/-- The `inline_data` / `inlineData` candidate object inside a part. -/
structure RawInline where
  data : Option String := none
  base64 : Option String := none
  mime_type : Option String := none
  mimeType : Option String := none
deriving DecidableEq

/-- One entry of a `parts` array. -/
structure RawPart where
  text : Option String := none
  inline_data : Option RawInline := none
  inlineData : Option RawInline := none
deriving DecidableEq

/-- A sanitised part: `{text}` or `{inline_data}`. -/
inductive ReqPart
  | text (text : String)
  | inline (inline_data : SanitizedInline)
deriving DecidableEq

/-- `sanitizeParts` body for one entry (the source pushes the result,
skipping `null`; modelled with `filterMap`). -/
def sanitizePart (part : RawPart) : Option ReqPart :=
  match part.text with
  | some t =>
    let t := jsTrim t
    if t.length > 0 then some (ReqPart.text t) else none
  | none =>
    match part.inline_data <|> part.inlineData with
    | some inl =>
      let data := match inl.data with
        | some d => d
        | none => match inl.base64 with
          | some b => b
          | none => ""
      let mime : Option String := match inl.mime_type with
        | some m => if (jsTrim m).length > 0 then some (jsTrim m) else
            match inl.mimeType with
            | some m2 => if (jsTrim m2).length > 0 then some (jsTrim m2) else none
            | none => none
        | none => match inl.mimeType with
          | some m2 => if (jsTrim m2).length > 0 then some (jsTrim m2) else none
          | none => none
      (sanitizeImagePart ⟨some data, mime⟩).map ReqPart.inline
    | none => none

/-- `sanitizeParts` (generate.js lines 94-140). -/
def sanitizeParts (rawParts : List RawPart) : List ReqPart :=
  rawParts.filterMap sanitizePart

/-- One entry of a `contents` array. -/
structure RawContent where
  role : Option String := none
  parts : List RawPart := []
deriving DecidableEq

/-- A sanitised content turn. -/
structure Content where
  role : String
  parts : List ReqPart
deriving DecidableEq

/-- `sanitizeContents` body for one indexed entry. -/
def sanitizeContent (index : Nat) (content : RawContent) : Option Content :=
  let role := match content.role with
    | some r =>
      if (jsTrim r).length > 0 then jsTrim r
      else if index = 0 then "user" else "assistant"
    | none => if index = 0 then "user" else "assistant"
  let parts := sanitizeParts content.parts
  if parts.length > 0 then some ⟨role, parts⟩ else none

/-- `sanitizeContents` (generate.js lines 142-171). -/
def sanitizeContents (rawContents : List RawContent) : List Content :=
  rawContents.enum.filterMap (fun ip => sanitizeContent ip.1 ip.2)

/-- The raw `systemInstruction` field: a string or an object. -/
inductive RawSysInstr
  | str (s : String)
  | obj (role : Option String) (parts : Option (List RawPart))
      (text : Option String)
deriving DecidableEq

/-- `sanitizeSystemInstruction` (generate.js lines 173-216). -/
def sanitizeSystemInstruction (raw : Option RawSysInstr) : Option Content :=
  match raw with
  | none => none
  | some (.str s) =>
    let t := jsTrim s
    if t = "" then none else some ⟨"system", [ReqPart.text t]⟩
  | some (.obj role parts text) =>
    let roleV := match role with
      | some r => if (jsTrim r).length > 0 then jsTrim r else "system"
      | none => "system"
    let candidateParts := match parts with
      | some ps => if ps.length > 0 then ps else [{ text := some (text.getD "") }]
      | none => [{ text := some (text.getD "") }]
    let sanitizedParts := sanitizeParts candidateParts
    if sanitizedParts.length = 0 then none else some ⟨roleV, sanitizedParts⟩

/-- `generationConfig` of the upstream request body. -/
structure GenerationConfig where
  temperature : ℚ
  topP : ℚ
  maxOutputTokens : ℚ
deriving DecidableEq

/-- The assembled upstream request body. -/
structure RequestBody where
  contents : List Content
  generationConfig : GenerationConfig
  systemInstruction : Option Content
deriving DecidableEq

/-- Arguments of `buildRequestBody` as the handler passes them. -/
structure GenerateArgs where
  userPrompt : Option String := none
  images : List InlineImage := []
  temperature : Option ℚ := none
  topP : Option ℚ := none
  maxOutputTokens : Option ℚ := none
  contents : List RawContent := []
  systemInstruction : Option RawSysInstr := none

/-- Inline image signature used by the dedup set in `buildRequestBody`:
the template literal `mime_type + "-" + data`. -/
def inlineSignature (img : SanitizedInline) : String :=
  img.mime_type ++ "-" ++ img.data

/-- Signature of a part when it is an inline image. -/
def partInlineSignature : ReqPart → Option String
  | .inline d => some (inlineSignature d)
  | _ => none

/-- The in-place merge of the handler-level inline images into the first
user turn (generate.js lines 254-278); `findIdx?.getD 0` mirrors
`find(...) ?? sanitizedContents[0]`, and the fold mirrors the `Set` of
existing signatures plus the pushes. -/
def mergeInlineImages (contents : List Content)
    (inlineImages : List SanitizedInline) : List Content :=
  let idx := (contents.findIdx? (fun c => c.role = "user")).getD 0
  match contents.get? idx with
  | none => contents
  | some turn =>
    let existing := turn.parts.filterMap partInlineSignature
    let merged := inlineImages.foldl
      (fun (st : List ReqPart × List String) img =>
        let s := inlineSignature img
        if st.2.contains s then st
        else (st.1 ++ [ReqPart.inline img], st.2 ++ [s]))
      (turn.parts, existing)
    contents.set idx { turn with parts := merged.1 }

/-- The initial `fallbackParts` push of `buildRequestBody`: the trimmed
`userPrompt` when it is a non-empty string. -/
def promptParts (userPrompt : Option String) : List ReqPart :=
  match userPrompt with
  | some p => if (jsTrim p).length > 0 then [ReqPart.text (jsTrim p)] else []
  | none => []

/-- `buildRequestBody` (generate.js lines 218-298). -/
def buildRequestBody (args : GenerateArgs) : RequestBody :=
  let fallbackParts : List ReqPart := promptParts args.userPrompt
  let inlineImages := sanitizeImageParts args.images
  let fallbackParts := fallbackParts ++ inlineImages.map ReqPart.inline
  let sanitizedContents := sanitizeContents args.contents
  let finalContents :=
    if sanitizedContents.length = 0 then
      let fallbackParts :=
        if fallbackParts.length = 0 then [ReqPart.text "Hello Gemini!"]
        else fallbackParts
      [⟨"user", fallbackParts⟩]
    else if inlineImages.length > 0 then
      mergeInlineImages sanitizedContents inlineImages
    else sanitizedContents
  { contents := finalContents
    generationConfig :=
      { temperature := (args.temperature).getD (7/10)
        topP := (args.topP).getD (9/10)
        maxOutputTokens := (args.maxOutputTokens).getD 1024 }
    systemInstruction := sanitizeSystemInstruction args.systemInstruction }

/-! ## `api/generate.js` : the POST handler

The handler destructures the parsed body as
`{ model, userPrompt, images, temperature, top_p: topP, maxOutputTokens,
contents, systemInstruction }` (lines 452-462): the upstream `topP`
comes only from the snake_case `top_p` key and the token limit only
from the camelCase `maxOutputTokens` key.  The body record below also
carries the alternative spellings a client might send (`topP`,
`max_output_tokens`) so that ignoring them is expressible.
`getAccessToken` and the HTTP layer are outside the embedding; the
upstream API is an oracle `call` from the model id to a result (the
same request body is sent on both calls, so the oracle needs no second
argument). -/

def DEFAULT_MODEL : String := "gemini-2.5-flash"

/-- A parsed POST body. -/
structure PostBody where
  model : Option String := none
  userPrompt : Option String := none
  images : List InlineImage := []
  temperature : Option ℚ := none
  top_p : Option ℚ := none
  topP : Option ℚ := none
  maxOutputTokens : Option ℚ := none
  max_output_tokens : Option ℚ := none
  contents : List RawContent := []
  systemInstruction : Option RawSysInstr := none

/-- Result shape of `callGeminiRest`: `{ok: true, text}` or
`{ok: false, status, message}`. -/
inductive CallResult
  | ok (text : String)
  | err (status : Option Nat) (message : Option String)
deriving DecidableEq

/-- The regex test `/model/i.test(msg)`. -/
def testModelPattern (msg : String) : Bool :=
  strContains (toLowerStr msg) "model"

/-- Matcher for the body of the regex `not`, whitespace, `found` at one
position of the lower-cased text. -/
def notFoundAt (l : List Char) : Bool :=
  if ['n', 'o', 't'].isPrefixOf l then
    let rest := l.drop 3
    let ws := rest.takeWhile isSpaceChar
    ws.length > 0 && ['f', 'o', 'u', 'n', 'd'].isPrefixOf (rest.drop ws.length)
  else false

/-- The case-insensitive regex test for `not` whitespace `found`. -/
def testNotFoundPattern (msg : String) : Bool :=
  (toLowerStr msg).data.tails.any notFoundAt

/-- `isModelUnavailable` (generate.js lines 493-497). -/
def isModelUnavailable (status : Option Nat) (message : Option String) : Bool :=
  status == some 404 || status == some 400 ||
  testModelPattern (message.getD "") || testNotFoundPattern (message.getD "")

/-- JSON body of a handler response. -/
inductive ResponseBody
  | success (reply : String) (modelUsed : String) (fallbackApplied : Bool)
  | failure (error : String)
deriving DecidableEq

/-- Handler outcome: HTTP status, JSON body, and the trace of model ids
passed to `callGeminiRest` in order. -/
structure HandlerResult where
  status : Nat
  body : ResponseBody
  calls : List String
deriving DecidableEq

/-- `requestedModel` derivation (generate.js lines 466-467). -/
def requestedModelOf (model : Option String) : String :=
  match model with
  | some m => if (jsTrim m).length > 0 then jsTrim m else DEFAULT_MODEL
  | none => DEFAULT_MODEL

/-- The request body the handler builds (generate.js lines 469-477);
note `topP := body.top_p` from the destructuring alias. -/
def handlerRequestBody (body : PostBody) : RequestBody :=
  buildRequestBody
    { userPrompt := body.userPrompt
      images := body.images
      temperature := body.temperature
      topP := body.top_p
      maxOutputTokens := body.maxOutputTokens
      contents := body.contents
      systemInstruction := body.systemInstruction }

/-- The POST branch of `handler` (generate.js lines 452-530) from the
first upstream call onwards. -/
def handlerPost (body : PostBody) (call : String → CallResult) : HandlerResult :=
  let requestedModel := requestedModelOf body.model
  match call requestedModel with
  | .ok text => ⟨200, .success text requestedModel false, [requestedModel]⟩
  | .err status message =>
    if requestedModel ≠ DEFAULT_MODEL ∧ isModelUnavailable status message then
      match call DEFAULT_MODEL with
      | .ok text =>
        ⟨200, .success text DEFAULT_MODEL true, [requestedModel, DEFAULT_MODEL]⟩
      | .err fstatus fmessage =>
        ⟨fstatus.getD 500,
         .failure (fmessage.getD "Errore durante il fallback del modello"),
         [requestedModel, DEFAULT_MODEL]⟩
    else
      ⟨status.getD 500,
       .failure (message.getD "Errore sconosciuto dal modello"),
       [requestedModel]⟩

/-- C1: the handler retries exactly once against the default model when
the first call fails with a model-unavailable signature and the
requested model is not the default; a successful retry answers 200 with
`fallbackApplied = true`, a failed retry surfaces the retry failure,
and any other first failure is surfaced directly with no retry; never
more than two upstream calls. -/
theorem C1_model_fallback (body : PostBody) (call : String → CallResult) :
    (handlerPost body call).calls.length ≤ 2 ∧
    (∀ text, call (requestedModelOf body.model) = .ok text →
      handlerPost body call =
        ⟨200, .success text (requestedModelOf body.model) false,
         [requestedModelOf body.model]⟩) ∧
    (∀ status message,
      call (requestedModelOf body.model) = .err status message →
      ((requestedModelOf body.model ≠ DEFAULT_MODEL ∧
          isModelUnavailable status message = true) →
        (handlerPost body call).calls =
          [requestedModelOf body.model, DEFAULT_MODEL] ∧
        (∀ t, call DEFAULT_MODEL = .ok t →
          handlerPost body call =
            ⟨200, .success t DEFAULT_MODEL true,
             [requestedModelOf body.model, DEFAULT_MODEL]⟩) ∧
        (∀ s2 m2, call DEFAULT_MODEL = .err s2 m2 →
          (handlerPost body call).status = s2.getD 500 ∧
          (handlerPost body call).body =
            .failure (m2.getD "Errore durante il fallback del modello"))) ∧
      (¬(requestedModelOf body.model ≠ DEFAULT_MODEL ∧
          isModelUnavailable status message = true) →
        (handlerPost body call).calls = [requestedModelOf body.model] ∧
        (handlerPost body call).status = status.getD 500 ∧
        (handlerPost body call).body =
          .failure (message.getD "Errore sconosciuto dal modello"))) := by
  refine ⟨?_, ?_, ?_⟩
  · simp only [handlerPost]
    cases hc : call (requestedModelOf body.model) with
    | ok t => simp
    | err s m =>
      dsimp only
      by_cases hcond : requestedModelOf body.model ≠ DEFAULT_MODEL ∧
          isModelUnavailable s m = true
      · rw [if_pos hcond]
        cases call DEFAULT_MODEL <;> simp
      · rw [if_neg hcond]
        simp
  · intro t ht
    simp only [handlerPost]
    rw [ht]
  · intro status message hmsg
    refine ⟨?_, ?_⟩
    · intro hcond
      simp only [handlerPost]
      rw [hmsg]
      dsimp only
      rw [if_pos hcond]
      refine ⟨?_, ?_, ?_⟩
      · cases call DEFAULT_MODEL <;> simp
      · intro t ht
        rw [ht]
      · intro s2 m2 hm2
        rw [hm2]
        exact ⟨rfl, rfl⟩
    · intro hcond
      simp only [handlerPost]
      rw [hmsg]
      dsimp only
      rw [if_neg hcond]
      exact ⟨rfl, rfl, rfl⟩

/-- Concrete oracle for the C1 witness: the custom model fails with a
404 and a model-related message, the default model succeeds. -/
def exCallC1 : String → CallResult :=
  fun m => if m = "custom-model" then
    CallResult.err (some 404) (some "model not found") else CallResult.ok "hi"

/-- Concrete body for the C1 witness. -/
def exBodyC1 : PostBody := { model := some "custom-model" }

/-- C1 witness: at the concrete input the fallback path is taken, with
exactly the two upstream calls and a 200 fallback response. -/
theorem C1_model_fallback_witness :
    (handlerPost exBodyC1 exCallC1).calls = ["custom-model", DEFAULT_MODEL] ∧
    handlerPost exBodyC1 exCallC1 =
      ⟨200, .success "hi" DEFAULT_MODEL true, ["custom-model", DEFAULT_MODEL]⟩ := by
  have h := C1_model_fallback exBodyC1 exCallC1
  have hreq : requestedModelOf exBodyC1.model = "custom-model" := by decide
  have hcall : exCallC1 (requestedModelOf exBodyC1.model) =
      .err (some 404) (some "model not found") := by decide
  have h2 := (h.2.2 (some 404) (some "model not found") hcall).1
    ⟨by decide, by decide⟩
  refine ⟨by rw [← hreq]; exact h2.1, ?_⟩
  have := h2.2.1 "hi" (by decide)
  rw [← hreq]
  exact this

/-- C9 counterexample: a body carrying the camelCase spelling `topP`
and a body carrying the snake_case spelling `top_p` with the same value
do NOT produce the same `generationConfig` — the handler reads only the
snake_case key, so the camelCase one falls back to the 0.9 default. -/
theorem C9_counterexample :
    handlerRequestBody { topP := some (1/2) } ≠
      handlerRequestBody { top_p := some (1/2) } := by
  intro h
  have h2 : (9/10 : ℚ) = 1/2 :=
    congrArg (fun r => r.generationConfig.topP) h
  norm_num at h2

/-- C9 amended: the handler accepts exactly one spelling per parameter
(`temperature`, snake_case `top_p`, camelCase `maxOutputTokens`),
substitutes the numeric defaults 0.7 / 0.9 / 1024 for missing ones, and
ignores the alternative spellings `topP` and `max_output_tokens`
entirely. -/
theorem C9_param_aliasing (body : PostBody) :
    (handlerRequestBody body).generationConfig =
      { temperature := body.temperature.getD (7/10)
        topP := body.top_p.getD (9/10)
        maxOutputTokens := body.maxOutputTokens.getD 1024 } ∧
    (∀ q r, handlerRequestBody { body with topP := q, max_output_tokens := r } =
      handlerRequestBody body) := by
  exact ⟨rfl, fun q r => rfl⟩

/-! ## C4 : the request body is never empty -/

theorem mem_set_cases {α : Type} (l : List α) (i : Nat) (a c : α)
    (h : c ∈ l.set i a) : c ∈ l ∨ c = a := by
  induction l generalizing i with
  | nil => simp at h
  | cons x xs ih =>
    cases i with
    | zero =>
      simp only [List.set] at h
      rcases List.mem_cons.mp h with h1 | h1
      · exact Or.inr h1
      · exact Or.inl (List.mem_cons_of_mem _ h1)
    | succ n =>
      simp only [List.set] at h
      rcases List.mem_cons.mp h with h1 | h1
      · exact Or.inl (h1 ▸ List.mem_cons_self _ _)
      · rcases ih n h1 with h2 | h2
        · exact Or.inl (List.mem_cons_of_mem _ h2)
        · exact Or.inr h2

theorem sanitizeContents_parts_ne_nil (raw : List RawContent) :
    ∀ c ∈ sanitizeContents raw, c.parts ≠ [] := by
  intro c hc
  unfold sanitizeContents at hc
  rcases List.mem_filterMap.mp hc with ⟨ip, -, hip⟩
  unfold sanitizeContent at hip
  by_cases hlen : (sanitizeParts ip.2.parts).length > 0
  · rw [if_pos hlen] at hip
    injection hip with hip2
    subst hip2
    show sanitizeParts ip.2.parts ≠ []
    intro hnil
    rw [hnil] at hlen
    simp at hlen
  · rw [if_neg hlen] at hip
    cases hip

theorem mergeFold_ne_nil (imgs : List SanitizedInline) :
    ∀ st : List ReqPart × List String, st.1 ≠ [] →
    (imgs.foldl
      (fun (st : List ReqPart × List String) img =>
        let s := inlineSignature img
        if st.2.contains s then st
        else (st.1 ++ [ReqPart.inline img], st.2 ++ [s])) st).1 ≠ [] := by
  induction imgs with
  | nil => intro st h; exact h
  | cons img rest ih =>
    intro st h
    simp only [List.foldl_cons]
    by_cases hc : st.2.contains (inlineSignature img)
    · simp only [hc, if_true]
      exact ih st h
    · simp only [hc, if_false]
      refine ih _ ?_
      simp

theorem mergeInlineImages_parts_ne_nil (contents : List Content)
    (imgs : List SanitizedInline) (h : ∀ c ∈ contents, c.parts ≠ []) :
    ∀ c ∈ mergeInlineImages contents imgs, c.parts ≠ [] := by
  intro c hc
  cases hg : contents.get?
      ((contents.findIdx? (fun c => c.role = "user")).getD 0) with
  | none =>
    simp only [mergeInlineImages, hg] at hc
    exact h c hc
  | some turn =>
    simp only [mergeInlineImages, hg] at hc
    rcases mem_set_cases _ _ _ _ hc with h1 | h1
    · exact h c h1
    · subst h1
      have hturn : turn ∈ contents := List.get?_mem hg
      exact mergeFold_ne_nil imgs
        (turn.parts, turn.parts.filterMap partInlineSignature) (h turn hturn)

theorem mergeInlineImages_ne_nil (contents : List Content)
    (imgs : List SanitizedInline) (h : contents ≠ []) :
    mergeInlineImages contents imgs ≠ [] := by
  cases hg : contents.get?
      ((contents.findIdx? (fun c => c.role = "user")).getD 0) with
  | none =>
    simp only [mergeInlineImages, hg]
    exact h
  | some turn =>
    simp only [mergeInlineImages, hg]
    intro hnil
    have hl := congrArg List.length hnil
    rw [List.length_set] at hl
    exact h (List.length_eq_zero.mp hl)

/-- C4: the assembled request body always has a non-empty `contents`
list whose turns all have at least one part, and when the normalised
prompt, sanitised image list and sanitised contents are all empty, the
substituted turn is exactly the single default greeting text part. -/
theorem C4_request_body_nonempty (args : GenerateArgs) :
    (buildRequestBody args).contents ≠ [] ∧
    (∀ c ∈ (buildRequestBody args).contents, c.parts ≠ []) ∧
    ((jsTrim (args.userPrompt.getD "")).length = 0 →
      sanitizeImageParts args.images = [] →
      sanitizeContents args.contents = [] →
      (buildRequestBody args).contents =
        [⟨"user", [ReqPart.text "Hello Gemini!"]⟩]) := by
  refine ⟨?_, ?_, ?_⟩
  · unfold buildRequestBody
    by_cases hlen : (sanitizeContents args.contents).length = 0
    · simp [hlen]
    · have hne : sanitizeContents args.contents ≠ [] := by
        intro hnil
        rw [hnil] at hlen
        exact hlen rfl
      by_cases himg : (sanitizeImageParts args.images).length > 0
      · simp only [if_neg hlen, if_pos himg]
        exact mergeInlineImages_ne_nil _ _ hne
      · simp only [if_neg hlen, if_neg himg]
        exact hne
  · intro c hc
    unfold buildRequestBody at hc
    dsimp only at hc
    by_cases hlen : (sanitizeContents args.contents).length = 0
    · simp only [if_pos hlen] at hc
      by_cases hfb : (promptParts args.userPrompt ++
          (sanitizeImageParts args.images).map ReqPart.inline).length = 0
      · simp only [if_pos hfb] at hc
        rcases List.mem_singleton.mp hc with rfl
        simp
      · simp only [if_neg hfb] at hc
        rcases List.mem_singleton.mp hc with rfl
        show promptParts args.userPrompt ++
          (sanitizeImageParts args.images).map ReqPart.inline ≠ []
        intro hnil
        rw [hnil] at hfb
        exact hfb rfl
    · by_cases himg : (sanitizeImageParts args.images).length > 0
      · simp only [if_neg hlen, if_pos himg] at hc
        exact mergeInlineImages_parts_ne_nil _ _
          (sanitizeContents_parts_ne_nil args.contents) c hc
      · simp only [if_neg hlen, if_neg himg] at hc
        exact sanitizeContents_parts_ne_nil args.contents c hc
  · intro hprompt himgs hcontents
    unfold buildRequestBody
    have hfb : promptParts args.userPrompt = [] := by
      unfold promptParts
      cases hp : args.userPrompt with
      | none => rfl
      | some p =>
        have hpp : jsTrim (args.userPrompt.getD "") = jsTrim p := by
          rw [hp]
          rfl
        rw [hpp] at hprompt
        simp [hprompt]
    simp [hcontents, himgs, hfb]

/-- C4 witness: at the fully empty argument record the request body is
the single default greeting turn. -/
theorem C4_request_body_nonempty_witness :
    (buildRequestBody {}).contents ≠ [] ∧
    (buildRequestBody {}).contents =
      [⟨"user", [ReqPart.text "Hello Gemini!"]⟩] := by
  have h := C4_request_body_nonempty {}
  exact ⟨h.1, h.2.2 (by decide) (by decide) (by decide)⟩

/-! ## `src/App.jsx` : image normalisation, collection and payload parts

A JS image record is duck-typed; `JsImage` carries every field any of
`normalizeImages`, `collectImages`, `mapImagesForUi` and
`mapImagesForStorage` reads.  The JS functions return fresh objects
with a subset of the keys; absent keys are `none`. -/

structure JsImage where
  url : Option String := none
  data : Option String := none
  previewUrl : Option String := none
  mimeType : Option String := none
  mime_type : Option String := none
  name : Option String := none
  size : Option ℚ := none
deriving DecidableEq

/-- The per-item body of `normalizeImages` (App.jsx lines 37-99);
non-object items map to `null` and are filtered out in the source, so
the embedding maps over object items only. -/
def normalizeImage (image : JsImage) : JsImage :=
  let mimeType := match image.mimeType with
    | some m =>
      if (jsTrim m).length > 0 then jsTrim m
      else match image.mime_type with
        | some m2 => if (jsTrim m2).length > 0 then jsTrim m2 else "image/png"
        | none => "image/png"
    | none => match image.mime_type with
      | some m2 => if (jsTrim m2).length > 0 then jsTrim m2 else "image/png"
      | none => "image/png"
  let name := image.name.getD ""
  let url := match image.url with
    | some u => jsTrim u
    | none => ""
  if url ≠ "" then
    { url := some url, mimeType := some mimeType, name := some name }
  else
    let size := image.size
    let data := match image.data with
      | some d => jsTrim d
      | none => ""
    if data ≠ "" then
      { data := some data, mimeType := some mimeType, name := some name,
        size := size }
    else
      let previewUrl := match image.previewUrl with
        | some p => if (jsTrim p).length > 0 then jsTrim p else ""
        | none => ""
      if previewUrl ≠ "" then
        { previewUrl := some previewUrl, mimeType := some mimeType,
          name := some name, size := size }
      else
        { mimeType := some mimeType, name := some name, size := size }

/-- `normalizeImages` (App.jsx lines 37-99). -/
def normalizeImages (rawImages : List JsImage) : List JsImage :=
  rawImages.map normalizeImage

/-- One entry of the structured `parts` array a message may carry. -/
structure MsgPart where
  type : Option String := none
  text : Option String := none
  data : Option String := none
  mimeType : Option String := none
  name : Option String := none
  size : Option ℚ := none
deriving DecidableEq

/-- Output element of `collectImages`: data, MIME type and name are
always strings there. -/
structure CollectedImg where
  data : String
  mimeType : String
  name : String
  size : Option ℚ := none
deriving DecidableEq

/-- The `imagesFromParts` mapper inside `collectImages` (App.jsx lines
116-142), producing the same object shape as a normalised data image. -/
def imageFromPart (part : MsgPart) : Option JsImage :=
  if part.type ≠ some "image" then none
  else
    let data := match part.data with
      | some d => jsTrim d
      | none => ""
    if data = "" then none
    else
      let mimeType := match part.mimeType with
        | some m => if (jsTrim m).length > 0 then jsTrim m else "image/png"
        | none => "image/png"
      some { data := some data, mimeType := some mimeType,
             name := some (part.name.getD ""), size := part.size }

/-- String signature used by the dedup loop of `collectImages`:
`mimeType + "-" + data` after the loop re-derives both fields. -/
def collectStep (st : List CollectedImg × List String) (image : JsImage) :
    List CollectedImg × List String :=
  let data := match image.data with
    | some d => jsTrim d
    | none => ""
  if data = "" then st
  else
    let mimeType := match image.mimeType with
      | some m => if (jsTrim m).length > 0 then jsTrim m else "image/png"
      | none => "image/png"
    let signature := mimeType ++ "-" ++ data
    if st.2.contains signature then st
    else
      (st.1 ++ [{ data := data, mimeType := mimeType,
                  name := image.name.getD "", size := image.size }],
       st.2 ++ [signature])

/-- `collectImages` (App.jsx lines 111-180). -/
def collectImages (rawImages : List JsImage) (rawParts : List MsgPart) :
    List CollectedImg :=
  let normalizedImages := (normalizeImages rawImages).filter
    (fun image => match image.data with
      | some d => (jsTrim d).length > 0
      | none => false)
  let imagesFromParts := rawParts.filterMap imageFromPart
  let combined := normalizedImages ++ imagesFromParts
  if combined.length = 0 then []
  else (combined.foldl collectStep ([], [])).1

/-- A payload part produced by `buildGeminiParts`: a text part or an
`inline_data` part. -/
inductive GPart
  | text (text : String)
  | inline (mime_type : String) (data : String)
deriving DecidableEq

/-- The per-part body of the `rawParts.forEach` loop of
`buildGeminiParts` (App.jsx lines 185-219); each raw part contributes
at most one payload part, independent of the accumulator, so the loop
is a `filterMap`. -/
def gpartOfMsgPart (sanitizedImages : List CollectedImg) (part : MsgPart) :
    Option GPart :=
  if part.type == some "text" then
    let text := match part.text with
      | some t => jsTrim t
      | none => ""
    if text.length > 0 then some (GPart.text text) else none
  else if part.type == some "image" then
    let data := match part.data with
      | some d => jsTrim d
      | none => ""
    if data = "" then none
    else
      let mimeTypeCandidate := match part.mimeType with
        | some m => if (jsTrim m).length > 0 then some (jsTrim m) else none
        | none => none
      let sanitizedMatch := sanitizedImages.find? (fun image => image.data = data)
      let mimeType := match mimeTypeCandidate with
        | some m => m
        | none => match sanitizedMatch with
          | some im => if im.mimeType ≠ "" then im.mimeType else "image/png"
          | none => "image/png"
      some (GPart.inline mimeType data)
  else none

/-- The structured-parts pass of `buildGeminiParts`. -/
def partsFromRaw (sanitizedImages : List CollectedImg)
    (rawParts : List MsgPart) : List GPart :=
  rawParts.filterMap (gpartOfMsgPart sanitizedImages)

/-- The `alreadyIncluded` test of `buildGeminiParts` (App.jsx lines
229-234): an inline part with the same data and the same mime type (the
collected image always carries a mime type, so the `?? 'image/png'`
default never fires there). -/
def alreadyIncludedIn (parts : List GPart) (image : CollectedImg) : Bool :=
  parts.any (fun p => match p with
    | .inline m d => d = image.data && m = image.mimeType
    | _ => false)

/-- The appending pass over `sanitizedImages` (App.jsx lines 228-243). -/
def appendImages (parts : List GPart) (sanitizedImages : List CollectedImg) :
    List GPart :=
  sanitizedImages.foldl (fun parts image =>
    if alreadyIncludedIn parts image then parts
    else parts ++ [GPart.inline image.mimeType image.data]) parts

/-- `buildGeminiParts` (App.jsx lines 182-250). -/
def buildGeminiParts (content : String)
    (sanitizedImages : List CollectedImg) (rawParts : List MsgPart) :
    List GPart :=
  let parts := partsFromRaw sanitizedImages rawParts
  let trimmedContent := jsTrim content
  let hasTextPart := parts.any (fun p => match p with
    | .text t => t.length > 0
    | _ => false)
  let parts :=
    if trimmedContent ≠ "" && !hasTextPart then
      GPart.text trimmedContent :: parts
    else parts
  let parts := appendImages parts sanitizedImages
  if parts.length = 0 then [GPart.text "Hello Gemini!"] else parts

/-! ## C3 : inline image deduplication -/

/-- The (mime type, data) pair of an inline payload part. -/
def gpartInlineSig : GPart → Option (String × String)
  | .inline m d => some (m, d)
  | _ => none

/-- All inline (mime type, data) pairs of a part list, in order. -/
def inlineSigs (l : List GPart) : List (String × String) :=
  l.filterMap gpartInlineSig

/-- The resolved (mime type, data) pair a structured part contributes
to the payload, if any. -/
def partResolvedSig (sanitizedImages : List CollectedImg) (part : MsgPart) :
    Option (String × String) :=
  (gpartOfMsgPart sanitizedImages part).bind gpartInlineSig

/-- The string signature `mimeType + "-" + data` of a collected image. -/
def imgSigStr (i : CollectedImg) : String := i.mimeType ++ "-" ++ i.data

theorem inlineSigs_partsFromRaw (si : List CollectedImg)
    (rp : List MsgPart) :
    inlineSigs (partsFromRaw si rp) = rp.filterMap (partResolvedSig si) := by
  unfold inlineSigs partsFromRaw partResolvedSig
  rw [List.filterMap_filterMap]

theorem alreadyIncludedIn_iff (parts : List GPart) (image : CollectedImg) :
    alreadyIncludedIn parts image = true ↔
      (image.mimeType, image.data) ∈ inlineSigs parts := by
  unfold alreadyIncludedIn inlineSigs
  rw [List.any_eq_true]
  constructor
  · rintro ⟨p, hp, hf⟩
    cases p with
    | text t => simp at hf
    | inline m d =>
      simp only [Bool.and_eq_true, decide_eq_true_eq] at hf
      exact List.mem_filterMap.mpr ⟨.inline m d, hp, by
        simp [gpartInlineSig, hf.1, hf.2]⟩
  · intro hmem
    rcases List.mem_filterMap.mp hmem with ⟨p, hp, hsig⟩
    cases p with
    | text t => simp [gpartInlineSig] at hsig
    | inline m d =>
      simp only [gpartInlineSig, Option.some.injEq, Prod.mk.injEq] at hsig
      exact ⟨.inline m d, hp, by simp [hsig.1, hsig.2]⟩

theorem inlineSigs_append (l1 l2 : List GPart) :
    inlineSigs (l1 ++ l2) = inlineSigs l1 ++ inlineSigs l2 := by
  unfold inlineSigs
  rw [List.filterMap_append]

theorem appendImages_spec (si : List CollectedImg) :
    ∀ parts : List GPart, (inlineSigs parts).Nodup →
      (inlineSigs (appendImages parts si)).Nodup ∧
      (∀ img ∈ si, (img.mimeType, img.data) ∈ inlineSigs (appendImages parts si)) ∧
      (∀ s ∈ inlineSigs parts, s ∈ inlineSigs (appendImages parts si)) := by
  induction si with
  | nil =>
    intro parts h
    exact ⟨h, by simp, fun s hs => hs⟩
  | cons img rest ih =>
    intro parts h
    by_cases hinc : alreadyIncludedIn parts img = true
    · have hstep : appendImages parts (img :: rest) = appendImages parts rest := by
        unfold appendImages
        simp [hinc]
      rw [hstep]
      obtain ⟨h1, h2, h3⟩ := ih parts h
      refine ⟨h1, ?_, h3⟩
      intro i hi
      rcases List.mem_cons.mp hi with rfl | hi2
      · exact h3 _ ((alreadyIncludedIn_iff parts i).mp hinc)
      · exact h2 i hi2
    · have hstep : appendImages parts (img :: rest) =
          appendImages (parts ++ [GPart.inline img.mimeType img.data]) rest := by
        unfold appendImages
        simp [hinc]
      rw [hstep]
      have hnotmem : (img.mimeType, img.data) ∉ inlineSigs parts := by
        intro hmem
        exact hinc ((alreadyIncludedIn_iff parts img).mpr hmem)
      have hsigs : inlineSigs (parts ++ [GPart.inline img.mimeType img.data]) =
          inlineSigs parts ++ [(img.mimeType, img.data)] := by
        rw [inlineSigs_append]
        rfl
      have hnodup : (inlineSigs (parts ++ [GPart.inline img.mimeType img.data])).Nodup := by
        rw [hsigs]
        rw [List.nodup_append]
        exact ⟨h, List.nodup_singleton _, by
          intro a ha hb
          rcases List.mem_singleton.mp hb with rfl
          exact hnotmem ha⟩
      obtain ⟨h1, h2, h3⟩ := ih _ hnodup
      refine ⟨h1, ?_, ?_⟩
      · intro i hi
        rcases List.mem_cons.mp hi with rfl | hi2
        · refine h3 _ ?_
          rw [hsigs]
          exact List.mem_append_right _ (List.mem_singleton.mpr rfl)
        · exact h2 i hi2
      · intro s hs
        refine h3 _ ?_
        rw [hsigs]
        exact List.mem_append_left _ hs

theorem inlineSigs_cons_text (t : String) (l : List GPart) :
    inlineSigs (GPart.text t :: l) = inlineSigs l := by
  unfold inlineSigs
  rfl

theorem collectFold_invariant (combined : List JsImage) :
    ∀ st : List CollectedImg × List String,
      st.2 = st.1.map imgSigStr → st.2.Nodup →
      (combined.foldl collectStep st).2 =
        (combined.foldl collectStep st).1.map imgSigStr ∧
      (combined.foldl collectStep st).2.Nodup := by
  induction combined with
  | nil => intro st h1 h2; exact ⟨h1, h2⟩
  | cons image rest ih =>
    intro st h1 h2
    rw [List.foldl_cons]
    by_cases hdata : (match image.data with
        | some d => jsTrim d
        | none => "") = ""
    · have : collectStep st image = st := by
        unfold collectStep
        rw [if_pos hdata]
      rw [this]
      exact ih st h1 h2
    · set mimeType := (match image.mimeType with
        | some m => if (jsTrim m).length > 0 then jsTrim m else "image/png"
        | none => "image/png") with hmime
      set data := (match image.data with
        | some d => jsTrim d
        | none => "") with hdataeq
      by_cases hseen : st.2.contains (mimeType ++ "-" ++ data) = true
      · have : collectStep st image = st := by
          unfold collectStep
          rw [if_neg hdata, ← hmime, ← hdataeq, if_pos hseen]
        rw [this]
        exact ih st h1 h2
      · have : collectStep st image =
            (st.1 ++ [{ data := data, mimeType := mimeType,
                        name := image.name.getD "", size := image.size }],
             st.2 ++ [mimeType ++ "-" ++ data]) := by
          unfold collectStep
          rw [if_neg hdata, ← hmime, ← hdataeq, if_neg hseen]
        rw [this]
        refine ih _ ?_ ?_
        · rw [h1, List.map_append]
          rfl
        · rw [List.nodup_append]
          refine ⟨h2, List.nodup_singleton _, ?_⟩
          intro a ha hb
          rcases List.mem_singleton.mp hb with rfl
          exact hseen (List.elem_eq_true_of_mem ha)

theorem collectImages_sig_nodup (rawImages : List JsImage)
    (rawParts : List MsgPart) :
    ((collectImages rawImages rawParts).map imgSigStr).Nodup := by
  unfold collectImages
  by_cases hlen : ((normalizeImages rawImages).filter
      (fun image => match image.data with
        | some d => (jsTrim d).length > 0
        | none => false) ++ rawParts.filterMap imageFromPart).length = 0
  · simp [hlen]
  · simp only [if_neg hlen]
    obtain ⟨h1, h2⟩ := collectFold_invariant _ ([], []) rfl List.nodup_nil
    rw [← h1]
    exact h2

theorem collectImages_pair_nodup (rawImages : List JsImage)
    (rawParts : List MsgPart) :
    ((collectImages rawImages rawParts).map
      (fun i => (i.mimeType, i.data))).Nodup := by
  have h := collectImages_sig_nodup rawImages rawParts
  have : (collectImages rawImages rawParts).map imgSigStr =
      (((collectImages rawImages rawParts).map
        (fun i => (i.mimeType, i.data))).map (fun p => p.1 ++ "-" ++ p.2)) := by
    rw [List.map_map]
    rfl
  rw [this] at h
  exact h.of_map

/-- Structured image part reused by the C3 counterexample. -/
def exPartC3 : MsgPart :=
  { type := some "image", data := some "QUJD", mimeType := some "image/png" }

/-- C3 counterexample: submitting the same inline image twice through
the structured parts yields a payload with TWO identical inline
entries — `buildGeminiParts` does not deduplicate within `rawParts`. -/
theorem C3_counterexample :
    buildGeminiParts "" (collectImages [] [exPartC3, exPartC3])
        [exPartC3, exPartC3] =
      [GPart.inline "image/png" "QUJD", GPart.inline "image/png" "QUJD"] ∧
    (buildGeminiParts "" (collectImages [] [exPartC3, exPartC3])
        [exPartC3, exPartC3]).countP
      (fun p => p == GPart.inline "image/png" "QUJD") ≠ 1 := by
  decide

/-- C3 amended: duplicates arriving via the images list, and duplicates
between the images list and the structured parts, are dropped (the
collected image set and the final payload carry pairwise-distinct
(mime type, data) pairs, each collected image appearing in the
payload); only when the structured parts themselves contain a repeated
inline image does the payload repeat it, so the hypothesis excludes
internal duplicates among the structured parts. -/
theorem C3_image_dedup (content : String) (rawImages : List JsImage)
    (rawParts : List MsgPart)
    (h : (rawParts.filterMap
      (partResolvedSig (collectImages rawImages rawParts))).Nodup) :
    ((collectImages rawImages rawParts).map
      (fun i => (i.mimeType, i.data))).Nodup ∧
    (inlineSigs (buildGeminiParts content
      (collectImages rawImages rawParts) rawParts)).Nodup ∧
    (∀ img ∈ collectImages rawImages rawParts,
      (img.mimeType, img.data) ∈ inlineSigs (buildGeminiParts content
        (collectImages rawImages rawParts) rawParts)) := by
  set si := collectImages rawImages rawParts with hsi
  refine ⟨collectImages_pair_nodup rawImages rawParts, ?_⟩
  unfold buildGeminiParts
  dsimp only
  set parts0 := partsFromRaw si rawParts with hparts0
  have hsigs0 : (inlineSigs parts0).Nodup := by
    rw [hparts0, inlineSigs_partsFromRaw]
    exact h
  by_cases hcond : (jsTrim content ≠ "" &&
      !(parts0.any (fun p => match p with
        | .text t => t.length > 0
        | _ => false))) = true
  · rw [if_pos hcond]
    have hsigs1 : (inlineSigs (GPart.text (jsTrim content) :: parts0)).Nodup := by
      rw [inlineSigs_cons_text]
      exact hsigs0
    obtain ⟨h1, h2, -⟩ := appendImages_spec si _ hsigs1
    by_cases hlen : (appendImages (GPart.text (jsTrim content) :: parts0) si).length = 0
    · simp only [if_pos hlen]
      refine ⟨by decide, ?_⟩
      intro img hmem
      exfalso
      have := h2 img hmem
      rcases List.mem_filterMap.mp this with ⟨p, hp, -⟩
      rw [List.length_eq_zero.mp hlen] at hp
      simp at hp
    · simp only [if_neg hlen]
      exact ⟨h1, h2⟩
  · rw [if_neg hcond]
    obtain ⟨h1, h2, -⟩ := appendImages_spec si parts0 hsigs0
    by_cases hlen : (appendImages parts0 si).length = 0
    · simp only [if_pos hlen]
      refine ⟨by decide, ?_⟩
      intro img hmem
      exfalso
      have := h2 img hmem
      rcases List.mem_filterMap.mp this with ⟨p, hp, -⟩
      rw [List.length_eq_zero.mp hlen] at hp
      simp at hp
    · simp only [if_neg hlen]
      exact ⟨h1, h2⟩

/-- C3 witness: a message with one image in the images list and one
distinct image among the structured parts satisfies the hypothesis, and
the payload carries each pair exactly once. -/
theorem C3_image_dedup_witness :
    ((collectImages [{ data := some "AAAA", mimeType := some "image/png" }]
        [{ type := some "image", data := some "BBBB" }]).map
      (fun i => (i.mimeType, i.data))).Nodup ∧
    (inlineSigs (buildGeminiParts "hi"
      (collectImages [{ data := some "AAAA", mimeType := some "image/png" }]
        [{ type := some "image", data := some "BBBB" }])
      [{ type := some "image", data := some "BBBB" }])).Nodup ∧
    (∀ img ∈ collectImages [{ data := some "AAAA", mimeType := some "image/png" }]
        [{ type := some "image", data := some "BBBB" }],
      (img.mimeType, img.data) ∈ inlineSigs (buildGeminiParts "hi"
        (collectImages [{ data := some "AAAA", mimeType := some "image/png" }]
          [{ type := some "image", data := some "BBBB" }])
        [{ type := some "image", data := some "BBBB" }])) :=
  C3_image_dedup "hi" [{ data := some "AAAA", mimeType := some "image/png" }]
    [{ type := some "image", data := some "BBBB" }] (by decide)

/-! ## Trim idempotence (needed for the serialization round trip) -/

theorem dropWhile_dropWhile (p : Char → Bool) (l : List Char) :
    (l.dropWhile p).dropWhile p = l.dropWhile p := by
  induction l with
  | nil => rfl
  | cons x rest ih =>
    by_cases hp : p x
    · simp [List.dropWhile_cons, hp, ih]
    · simp [List.dropWhile_cons, hp]

theorem dropWhile_suffix_exists (p : Char → Bool) (l : List Char) :
    ∃ t, t ++ l.dropWhile p = l := by
  induction l with
  | nil => exact ⟨[], rfl⟩
  | cons x rest ih =>
    by_cases hp : p x
    · obtain ⟨t, ht⟩ := ih
      exact ⟨x :: t, by simp [List.dropWhile_cons, hp, ht]⟩
    · exact ⟨[], by simp [List.dropWhile_cons, hp]⟩

theorem head_false_of_dropWhile_self (p : Char → Bool) (x : Char)
    (xs : List Char) (h : (x :: xs).dropWhile p = x :: xs) : p x = false := by
  by_cases hp : p x
  · rw [List.dropWhile_cons, if_pos hp] at h
    have hlen := congrArg List.length h
    have hle := List.Sublist.length_le (List.dropWhile_sublist (l := xs) p)
    simp at hlen
    omega
  · simpa using hp

theorem trimChars_idem (l : List Char) :
    trimChars (trimChars l) = trimChars l := by
  unfold trimChars
  set p := isSpaceChar
  set A := l.dropWhile p with hA
  set B := A.reverse.dropWhile p with hB
  have hAdrop : A.dropWhile p = A := dropWhile_dropWhile p l
  have hBdrop : B.dropWhile p = B := dropWhile_dropWhile p A.reverse
  obtain ⟨u, hu⟩ := dropWhile_suffix_exists p A.reverse
  have hArepr : A = B.reverse ++ u.reverse := by
    have := congrArg List.reverse hu
    simpa [List.reverse_append] using this.symm
  have hTdrop : B.reverse.dropWhile p = B.reverse := by
    cases hrev : B.reverse with
    | nil => rfl
    | cons c t2 =>
      have hAc : A = c :: (t2 ++ u.reverse) := by
        rw [hArepr, hrev]
        simp
      have hc : p c = false := by
        refine head_false_of_dropWhile_self p c (t2 ++ u.reverse) ?_
        rw [← hAc]
        exact hAdrop
      simp [List.dropWhile_cons, hc]
  rw [hTdrop]
  rw [List.reverse_reverse, hBdrop]

theorem jsTrim_idem (s : String) : jsTrim (jsTrim s) = jsTrim s :=
  congrArg String.mk (trimChars_idem s.data)

theorem jsTrim_empty : jsTrim "" = "" := rfl

/-! ## `src/App.jsx` : message serialization for the document store -/

/-- The MIME resolution of `mapImagesForStorage` (App.jsx lines
450-455): `mimeType` trimmed if non-empty, else `mime_type` trimmed if
non-empty, else the empty string. -/
def storageMime (image : JsImage) : String :=
  match image.mimeType with
  | some m =>
    if (jsTrim m).length > 0 then jsTrim m
    else match image.mime_type with
      | some m2 => if (jsTrim m2).length > 0 then jsTrim m2 else ""
      | none => ""
  | none => match image.mime_type with
    | some m2 => if (jsTrim m2).length > 0 then jsTrim m2 else ""
    | none => ""

/-- The per-image body of `mapImagesForStorage` (App.jsx lines
442-472): only URL-bearing records survive, with optional
`mime_type` / `name` / `size` metadata. -/
def mapImageForStorage (image : JsImage) : Option JsImage :=
  let url := match image.url with
    | some u => jsTrim u
    | none => ""
  if url = "" then none
  else
    let mimeType := storageMime image
    some { url := some url
           mime_type := if mimeType ≠ "" then some mimeType else none
           name := match image.name with
             | some n => if (jsTrim n).length > 0 then some (jsTrim n) else none
             | none => none
           size := image.size }

/-- `mapImagesForStorage` (App.jsx lines 442-472). -/
def mapImagesForStorage (images : List JsImage) : List JsImage :=
  images.filterMap mapImageForStorage

/-- A chat message as App.jsx holds it in state. -/
structure ChatMessage where
  role : String
  content : String
  timestamp : ℚ
  images : List JsImage
  imageBase64 : Option String
deriving DecidableEq

/-- `serializeMessagesForStorage` (App.jsx lines 474-479): spread the
message, replace `images`, null `imageBase64`. -/
def serializeMessagesForStorage (messages : List ChatMessage) : List ChatMessage :=
  messages.map (fun message =>
    { message with images := mapImagesForStorage message.images
                   imageBase64 := none })

/-- The message mapping the chats snapshot listener applies on re-read
(App.jsx lines 776-785): images re-normalised, `imageBase64` kept only
when a non-empty trimmed string. -/
def rereadMessage (message : ChatMessage) : ChatMessage :=
  { role := message.role
    content := message.content
    timestamp := message.timestamp
    images := normalizeImages message.images
    imageBase64 := match message.imageBase64 with
      | some s => if (jsTrim s).length > 0 then some (jsTrim s) else none
      | none => none }

/-- The snapshot mapping over a whole message list. -/
def rereadMessages (messages : List ChatMessage) : List ChatMessage :=
  messages.map rereadMessage

theorem jsTrim_storageMime (x : JsImage) :
    jsTrim (storageMime x) = storageMime x := by
  unfold storageMime
  cases x.mimeType with
  | some m =>
    by_cases h : (jsTrim m).length > 0
    · simp only [if_pos h]
      exact jsTrim_idem m
    · simp only [if_neg h]
      cases x.mime_type with
      | some m2 =>
        by_cases h2 : (jsTrim m2).length > 0
        · simp only [if_pos h2]
          exact jsTrim_idem m2
        · simp only [if_neg h2]
          exact jsTrim_empty
      | none => exact jsTrim_empty
  | none =>
    cases x.mime_type with
    | some m2 =>
      by_cases h2 : (jsTrim m2).length > 0
      · simp only [if_pos h2]
        exact jsTrim_idem m2
      · simp only [if_neg h2]
        exact jsTrim_empty
    | none => exact jsTrim_empty

theorem strLength_pos_of_ne_empty (s : String) (h : s ≠ "") : 0 < s.length := by
  cases s with
  | mk data =>
    cases data with
    | nil => exact absurd rfl h
    | cons c cs => simp [String.length]

theorem storageMime_none_some (img : JsImage) (m : String)
    (h1 : img.mimeType = none) (h2 : img.mime_type = some m)
    (hm : jsTrim m = m) (hlen : 0 < m.length) : storageMime img = m := by
  unfold storageMime
  rw [h1, h2]
  dsimp only
  rw [hm]
  rw [if_pos hlen]

theorem storageMime_none_none (img : JsImage)
    (h1 : img.mimeType = none) (h2 : img.mime_type = none) :
    storageMime img = "" := by
  unfold storageMime
  rw [h1, h2]

theorem mapImageForStorage_idem_pt (x y : JsImage)
    (h : mapImageForStorage x = some y) : mapImageForStorage y = some y := by
  unfold mapImageForStorage at h
  dsimp only at h
  cases hx : x.url with
  | none =>
    rw [hx] at h
    simp at h
  | some u =>
    rw [hx] at h
    dsimp only at h
    by_cases hu : jsTrim u = ""
    · rw [if_pos hu] at h
      cases h
    · rw [if_neg hu] at h
      injection h with hy
      subst hy
      unfold mapImageForStorage
      dsimp only
      rw [jsTrim_idem]
      rw [if_neg hu]
      have hname : (match (match x.name with
          | some n => if (jsTrim n).length > 0 then some (jsTrim n) else none
          | none => none : Option String) with
          | some n => if (jsTrim n).length > 0 then some (jsTrim n) else none
          | none => (none : Option String)) =
          (match x.name with
          | some n => if (jsTrim n).length > 0 then some (jsTrim n) else none
          | none => none) := by
        cases hn : x.name with
        | none => rfl
        | some n =>
          dsimp only
          by_cases hlen : (jsTrim n).length > 0
          · rw [if_pos hlen]
            dsimp only
            rw [jsTrim_idem]
            rw [if_pos hlen]
          · rw [if_neg hlen]
      by_cases hm : storageMime x = ""
      · have hmime2 : storageMime
            { url := some (jsTrim u)
              mime_type := if storageMime x ≠ "" then some (storageMime x) else none
              name := match x.name with
                | some n => if (jsTrim n).length > 0 then some (jsTrim n) else none
                | none => none
              size := x.size } = "" := by
          refine storageMime_none_none _ rfl ?_
          simp [hm]
        rw [hmime2]
        simp [hm]
        exact hname
      · have hmime2 : storageMime
            { url := some (jsTrim u)
              mime_type := if storageMime x ≠ "" then some (storageMime x) else none
              name := match x.name with
                | some n => if (jsTrim n).length > 0 then some (jsTrim n) else none
                | none => none
              size := x.size } = storageMime x := by
          refine storageMime_none_some _ (storageMime x) rfl ?_
            (jsTrim_storageMime x) (strLength_pos_of_ne_empty _ hm)
          simp [hm]
        rw [hmime2]
        rw [hname]

theorem storageMime_some (img : JsImage) (m : String)
    (h1 : img.mimeType = some m) (hm : jsTrim m = m) (hlen : 0 < m.length) :
    storageMime img = m := by
  unfold storageMime
  rw [h1]
  dsimp only
  rw [hm]
  rw [if_pos hlen]

theorem mapImageForStorage_reread_pt (x y : JsImage)
    (h : mapImageForStorage x = some y)
    (hm : storageMime x ≠ "") (hs : x.size = none) :
    mapImageForStorage (normalizeImage y) = some y := by
  unfold mapImageForStorage at h
  dsimp only at h
  cases hx : x.url with
  | none =>
    rw [hx] at h
    simp at h
  | some u =>
    rw [hx] at h
    dsimp only at h
    by_cases hu : jsTrim u = ""
    · rw [if_pos hu] at h
      cases h
    · rw [if_neg hu] at h
      injection h with hy
      subst hy
      rw [if_pos hm, hs]
      unfold normalizeImage
      dsimp only
      rw [jsTrim_storageMime x]
      rw [if_pos (strLength_pos_of_ne_empty _ hm)]
      rw [jsTrim_idem]
      rw [if_pos hu]
      unfold mapImageForStorage
      dsimp only
      rw [jsTrim_idem]
      rw [if_neg hu]
      have hsm : storageMime
          { url := some (jsTrim u)
            mimeType := some (storageMime x)
            name := some ((match x.name with
              | some n => if (jsTrim n).length > 0 then some (jsTrim n) else none
              | none => none).getD "")
            size := none } = storageMime x :=
        storageMime_some _ _ rfl (jsTrim_storageMime x)
          (strLength_pos_of_ne_empty _ hm)
      rw [hsm]
      rw [if_pos hm]
      cases hn : x.name with
      | none =>
        simp [jsTrim_empty]
      | some n =>
        dsimp only
        by_cases hlen : (jsTrim n).length > 0
        · rw [if_pos hlen]
          simp only [Option.getD_some]
          rw [jsTrim_idem]
          rw [if_pos hlen]
        · rw [if_neg hlen]
          simp [jsTrim_empty]

theorem mapImageForStorage_shape (x y : JsImage)
    (h : mapImageForStorage x = some y) :
    y.url ≠ none ∧ y.data = none ∧ y.previewUrl = none := by
  unfold mapImageForStorage at h
  dsimp only at h
  by_cases hu : (match x.url with
      | some u => jsTrim u
      | none => "") = ""
  · rw [if_pos hu] at h
    cases h
  · rw [if_neg hu] at h
    injection h with hy
    subst hy
    exact ⟨Option.some_ne_none _, rfl, rfl⟩

theorem mapImagesForStorage_idem (images : List JsImage) :
    mapImagesForStorage (mapImagesForStorage images) =
      mapImagesForStorage images := by
  unfold mapImagesForStorage
  rw [List.filterMap_filterMap]
  refine List.filterMap_congr ?_
  intro x _
  cases hfx : mapImageForStorage x with
  | none => rfl
  | some y =>
    rw [Option.some_bind]
    exact mapImageForStorage_idem_pt x y hfx

theorem mapImagesForStorage_reread (images : List JsImage)
    (h : ∀ img ∈ images, jsTrim (img.url.getD "") ≠ "" →
      storageMime img ≠ "" ∧ img.size = none) :
    mapImagesForStorage (normalizeImages (mapImagesForStorage images)) =
      mapImagesForStorage images := by
  unfold mapImagesForStorage normalizeImages
  rw [List.filterMap_map, List.filterMap_filterMap]
  refine List.filterMap_congr ?_
  intro x hx
  cases hfx : mapImageForStorage x with
  | none => rfl
  | some y =>
    rw [Option.some_bind]
    simp only [Function.comp_apply]
    have hguard : jsTrim (x.url.getD "") ≠ "" := by
      unfold mapImageForStorage at hfx
      dsimp only at hfx
      cases hxu : x.url with
      | none =>
        rw [hxu] at hfx
        simp at hfx
      | some u =>
        rw [hxu] at hfx
        dsimp only at hfx
        by_cases hu : jsTrim u = ""
        · rw [if_pos hu] at hfx
          cases hfx
        · simpa [hxu] using hu
    obtain ⟨hm, hs⟩ := h x hx hguard
    exact mapImageForStorage_reread_pt x y hfx hm hs

/-- Concrete message for the C8 counterexample: a URL image that
carries a size but no MIME type. -/
def exMsgC8 : ChatMessage :=
  { role := "user", content := "", timestamp := 0,
    images := [{ url := some "u", size := some 5 }], imageBase64 := none }

/-- C8 counterexample: serializing the re-read of a serialized message
list does NOT reproduce the first serialization — the re-read drops the
stored `size` and substitutes the default MIME type, so the second
serialization differs. -/
theorem C8_counterexample :
    serializeMessagesForStorage (rereadMessages
        (serializeMessagesForStorage [exMsgC8])) ≠
      serializeMessagesForStorage [exMsgC8] := by
  decide

/-- C8 amended: serialization strips every inline field (imageBase64 is
nulled, only URL-bearing image records survive, with no data or preview
fields); serialization alone is idempotent; and the serialize, re-read,
re-serialize round trip is the identity on serialized output exactly
when every kept image record resolves a non-empty MIME type and carries
no size field (otherwise the re-read defaults the MIME type to
image/png and drops the size, as the counterexample shows). -/
theorem C8_serialization (messages : List ChatMessage) :
    (∀ m ∈ serializeMessagesForStorage messages,
      m.imageBase64 = none ∧
      ∀ img ∈ m.images, img.url ≠ none ∧ img.data = none ∧
        img.previewUrl = none) ∧
    serializeMessagesForStorage (serializeMessagesForStorage messages) =
      serializeMessagesForStorage messages ∧
    ((∀ m ∈ messages, ∀ img ∈ m.images,
        jsTrim (img.url.getD "") ≠ "" →
        storageMime img ≠ "" ∧ img.size = none) →
      serializeMessagesForStorage (rereadMessages
          (serializeMessagesForStorage messages)) =
        serializeMessagesForStorage messages) := by
  refine ⟨?_, ?_, ?_⟩
  · intro m hm
    unfold serializeMessagesForStorage at hm
    rcases List.mem_map.mp hm with ⟨m0, -, hm0⟩
    subst hm0
    refine ⟨rfl, ?_⟩
    intro img himg
    have himg2 : img ∈ mapImagesForStorage m0.images := himg
    rcases List.mem_filterMap.mp himg2 with ⟨x, -, hfx⟩
    exact mapImageForStorage_shape x img hfx
  · unfold serializeMessagesForStorage
    rw [List.map_map]
    refine List.map_congr_left ?_
    intro m _
    simp only [Function.comp_apply]
    rw [mapImagesForStorage_idem]
  · intro h
    unfold serializeMessagesForStorage rereadMessages
    rw [List.map_map, List.map_map]
    refine List.map_congr_left ?_
    intro m hm
    simp only [Function.comp_apply]
    unfold rereadMessage
    dsimp only
    have := mapImagesForStorage_reread m.images (h m hm)
    rw [this]

/-- Concrete message for the C8 witness: a URL image with an explicit
MIME type and no size. -/
def exMsgC8w : ChatMessage :=
  { role := "user", content := "c", timestamp := 0,
    images := [{ url := some "http://x", mimeType := some "image/png",
                 name := some "a.png" }],
    imageBase64 := some "ZZZZ" }

/-- C8 witness: the amended statement instantiated at a message whose
image record satisfies the round-trip condition. -/
theorem C8_serialization_witness :
    (∀ m ∈ serializeMessagesForStorage [exMsgC8w],
      m.imageBase64 = none ∧
      ∀ img ∈ m.images, img.url ≠ none ∧ img.data = none ∧
        img.previewUrl = none) ∧
    serializeMessagesForStorage (serializeMessagesForStorage [exMsgC8w]) =
      serializeMessagesForStorage [exMsgC8w] ∧
    serializeMessagesForStorage (rereadMessages
        (serializeMessagesForStorage [exMsgC8w])) =
      serializeMessagesForStorage [exMsgC8w] := by
  have h := C8_serialization [exMsgC8w]
  exact ⟨h.1, h.2.1, h.2.2 (by decide)⟩

/-! ## The image transcoder (Chat component file)

Browser objects are oracles: `decoded` is what `new Image()` reports
(`none` models `onerror`), and `encode` is `canvas.toDataURL` restricted
to its base64 payload, as a pure function of target width, target
height, MIME type and optional quality.  The 2d canvas context is
assumed available (its absence is caught exactly like a decode failure
and ends in the same direct-read fallback).  JS numbers appear as `ℚ`;
the only float subtlety is that `MAX_IMAGE_INLINE_BYTES * 0.7` is not
exactly 630000 in doubles, which moves the small-file cutoff by at most
one byte and is irrelevant to every claim. -/

def MAX_IMAGE_INLINE_BYTES : Nat := 900000

def MAX_IMAGE_DIMENSIONS : List Nat := [1600, 1280, 1024, 720, 512]

def JPEG_QUALITY_STEPS : List ℚ := [88/100, 75/100, 65/100, 50/100]

/-- An in-memory image file plus the browser behaviour on it. -/
structure ImageFile where
  size : Nat
  fileType : String
  directBase64 : String
  decoded : Option (Nat × Nat)
  encode : Nat → Nat → String → Option ℚ → String

/-- `Math.round` on a non-negative quantity. -/
def jsRound (q : ℚ) : ℤ := ⌊q + 1/2⌋

/-- One entry of the `attempts` array of `generateCompressedBase64`. -/
structure Attempt where
  base64 : String
  bytes : Nat
  mimeType : String
  width : Nat
  height : Nat
deriving DecidableEq

/-- `originalMimeType` (the file type when it is an image type, else
JPEG). -/
def originalMimeType (file : ImageFile) : String :=
  if strStartsWith file.fileType "image/" then file.fileType else "image/jpeg"

/-- `mimeCandidates`: original format first, then JPEG. -/
def mimeCandidates (file : ImageFile) : List String :=
  if originalMimeType file = "image/png" then ["image/png", "image/jpeg"]
  else [originalMimeType file, "image/jpeg"]

/-- Quality ladder per encoding: the JPEG quality steps, or a single
format-default encoding. -/
def qualitiesFor (mime : String) : List (Option ℚ) :=
  if mime = "image/jpeg" then JPEG_QUALITY_STEPS.map some else [none]

/-- The scaled target dimensions for one ladder entry. -/
def targetDims (w h maxDimension : Nat) : Nat × Nat :=
  let scale : ℚ := min ((maxDimension : ℚ) / (w : ℚ))
    (min ((maxDimension : ℚ) / (h : ℚ)) 1)
  ((max 1 (jsRound ((w : ℚ) * scale)).toNat),
   (max 1 (jsRound ((h : ℚ) * scale)).toNat))

/-- All candidates of the nested ladder loops, in visit order. -/
def buildAttempts (file : ImageFile) (w h : Nat) : List Attempt :=
  MAX_IMAGE_DIMENSIONS.flatMap (fun maxDimension =>
    let tw := (targetDims w h maxDimension).1
    let th := (targetDims w h maxDimension).2
    (mimeCandidates file).flatMap (fun mime =>
      (qualitiesFor mime).map (fun quality =>
        let base64 := file.encode tw th mime quality
        { base64 := base64
          bytes := estimateBase64Bytes base64
          mimeType := mime
          width := tw
          height := th })))

inductive TranscodeError
  | decodeFailed
  | noDimensions
  | compressFailed
deriving DecidableEq

/-- Result shape of `generateCompressedBase64`. -/
structure CompressResult where
  data : String
  mimeType : String
  width : Nat
  height : Nat
deriving DecidableEq

/-- The `attempts.reduce` call: keep the strictly smaller candidate, so
the first minimum wins. -/
def minAttempt : Attempt → List Attempt → Attempt
  | a, [] => a
  | a, b :: rest => minAttempt (if b.bytes < a.bytes then b else a) rest

/-- `generateCompressedBase64` of the Chat component file (lines
70-164).  The in-loop early return is expressed as `find?` over the
candidate list, which is identical because the encoder is a pure
function. -/
def generateCompressedBase64 (file : ImageFile) :
    Except TranscodeError CompressResult :=
  match file.decoded with
  | none => .error .decodeFailed
  | some (w, h) =>
    if w = 0 ∨ h = 0 then .error .noDimensions
    else
      let attempts := buildAttempts file w h
      match attempts.find? (fun a => a.bytes ≤ MAX_IMAGE_INLINE_BYTES) with
      | some a => .ok ⟨a.base64, a.mimeType, a.width, a.height⟩
      | none =>
        match attempts with
        | [] => .error .compressFailed
        | a :: rest =>
          let smallest := minAttempt a rest
          .ok ⟨smallest.base64, smallest.mimeType, smallest.width,
               smallest.height⟩

/-- Output shape of `processImageFile`. -/
structure ProcessedImage where
  data : String
  mimeType : String
deriving DecidableEq

/-- The `fallbackMime` of `processImageFile`. -/
def fallbackMimeOf (file : ImageFile) : String :=
  if strStartsWith file.fileType "image/" then file.fileType
  else "image/jpeg"

/-- The small-file fast-path condition of `processImageFile`: the raw
size is within 70% of the cap and the direct read estimates under the
cap. -/
def fastPathCond (file : ImageFile) : Prop :=
  (file.size : ℚ) ≤ (MAX_IMAGE_INLINE_BYTES : ℚ) * (7/10) ∧
  estimateBase64Bytes file.directBase64 ≤ MAX_IMAGE_INLINE_BYTES

instance (file : ImageFile) : Decidable (fastPathCond file) := by
  unfold fastPathCond
  infer_instance

/-- `processImageFile` (Chat component file, lines 166-195).  Every
caught error, including decode failure, ends in the unmodified direct
read; the compressed result is used only when its data is non-empty
(the JS truthiness test). -/
def processImageFile (file : ImageFile) : ProcessedImage :=
  if fastPathCond file then
    { data := file.directBase64, mimeType := fallbackMimeOf file }
  else
    match generateCompressedBase64 file with
    | .ok compressed =>
      if compressed.data ≠ "" then
        { data := compressed.data, mimeType := compressed.mimeType }
      else { data := file.directBase64, mimeType := fallbackMimeOf file }
    | .error _ => { data := file.directBase64, mimeType := fallbackMimeOf file }

theorem minAttempt_mem (a : Attempt) (rest : List Attempt) :
    minAttempt a rest ∈ a :: rest := by
  induction rest generalizing a with
  | nil => simp [minAttempt]
  | cons b rest ih =>
    simp only [minAttempt]
    by_cases hb : b.bytes < a.bytes
    · rw [if_pos hb]
      rcases List.mem_cons.mp (ih b) with h1 | h1
      · rw [h1]
        simp
      · exact List.mem_cons_of_mem _ (List.mem_cons_of_mem _ h1)
    · rw [if_neg hb]
      rcases List.mem_cons.mp (ih a) with h1 | h1
      · rw [h1]
        simp
      · exact List.mem_cons_of_mem _ (List.mem_cons_of_mem _ h1)

theorem minAttempt_le (a : Attempt) (rest : List Attempt) :
    ∀ c ∈ a :: rest, (minAttempt a rest).bytes ≤ c.bytes := by
  induction rest generalizing a with
  | nil =>
    intro c hc
    rcases List.mem_singleton.mp hc with rfl
    simp [minAttempt]
  | cons b rest ih =>
    intro c hc
    simp only [minAttempt]
    by_cases hb : b.bytes < a.bytes
    · rw [if_pos hb]
      rcases List.mem_cons.mp hc with rfl | hc2
      · exact Nat.le_trans (ih b b (List.mem_cons_self _ _)) (Nat.le_of_lt hb)
      · exact ih b c hc2
    · rw [if_neg hb]
      rcases List.mem_cons.mp hc with rfl | hc2
      · exact ih c c (List.mem_cons_self _ _)
      · rcases List.mem_cons.mp hc2 with rfl | hc3
        · exact Nat.le_trans (ih a a (List.mem_cons_self _ _))
            (Nat.le_of_not_lt hb)
        · exact ih a c (List.mem_cons_of_mem _ hc3)

/-- Concrete decodable file for the C2 counterexample: small enough for
the fast path, decodable, and with an encoder whose first ladder
candidate differs from the raw bytes. -/
def exFileC2 : ImageFile :=
  { size := 1000
    fileType := "image/png"
    directBase64 := "QUJD"
    decoded := some (10, 10)
    encode := fun _ _ _ _ => "QQQQQQQQ" }

/-- C2 counterexample: a decodable file is returned as the unmodified
direct read through the small-file fast path even though the first
ladder candidate meets the cap and differs, so the transcoder does not
return the first ladder candidate for every decodable image. -/
theorem C2_counterexample :
    exFileC2.decoded = some (10, 10) ∧
    processImageFile exFileC2 = ⟨"QUJD", "image/png"⟩ ∧
    ((buildAttempts exFileC2 10 10).find?
      (fun a => a.bytes ≤ MAX_IMAGE_INLINE_BYTES)).map (fun a => a.base64) =
      some "QQQQQQQQ" ∧
    "QUJD" ≠ "QQQQQQQQ" := by
  refine ⟨rfl, ?_, rfl, by decide⟩
  unfold processImageFile
  rw [if_pos ?_]
  · rfl
  · constructor
    · show ((1000 : Nat) : ℚ) ≤ ((900000 : Nat) : ℚ) * (7/10)
      norm_num
    · decide

/-- C2 amended: the transcoder first returns the unmodified direct read
whenever the raw file is within 70% of the cap and the direct estimate
meets the cap; otherwise, for a decodable image, it returns the first
ladder candidate meeting the cap when one exists, else the smallest
candidate observed across all attempts; a decode failure (like any
other compression error) falls back to the unmodified direct read. -/
theorem C2_transcoder (file : ImageFile) :
    (fastPathCond file →
      processImageFile file = ⟨file.directBase64, fallbackMimeOf file⟩) ∧
    (file.decoded = none →
      processImageFile file = ⟨file.directBase64, fallbackMimeOf file⟩) ∧
    (∀ w h a, file.decoded = some (w, h) → ¬(w = 0 ∨ h = 0) →
      ¬ fastPathCond file →
      (buildAttempts file w h).find?
        (fun a => a.bytes ≤ MAX_IMAGE_INLINE_BYTES) = some a →
      a.base64 ≠ "" →
      a.bytes ≤ MAX_IMAGE_INLINE_BYTES ∧ a ∈ buildAttempts file w h ∧
      processImageFile file = ⟨a.base64, a.mimeType⟩) ∧
    (∀ w h a rest, file.decoded = some (w, h) → ¬(w = 0 ∨ h = 0) →
      ¬ fastPathCond file →
      (buildAttempts file w h).find?
        (fun a => a.bytes ≤ MAX_IMAGE_INLINE_BYTES) = none →
      buildAttempts file w h = a :: rest →
      (minAttempt a rest).base64 ≠ "" →
      minAttempt a rest ∈ buildAttempts file w h ∧
      (∀ b ∈ buildAttempts file w h, (minAttempt a rest).bytes ≤ b.bytes) ∧
      processImageFile file =
        ⟨(minAttempt a rest).base64, (minAttempt a rest).mimeType⟩) := by
  refine ⟨?_, ?_, ?_, ?_⟩
  · intro hf
    unfold processImageFile
    rw [if_pos hf]
  · intro hdec
    by_cases hf : fastPathCond file
    · unfold processImageFile
      rw [if_pos hf]
    · unfold processImageFile
      rw [if_neg hf]
      unfold generateCompressedBase64
      rw [hdec]
  · intro w h a hdec hne hf hfind hdata
    refine ⟨?_, List.mem_of_find?_eq_some hfind, ?_⟩
    · have := List.find?_some hfind
      simpa using this
    · unfold processImageFile
      rw [if_neg hf]
      unfold generateCompressedBase64
      rw [hdec]
      dsimp only
      rw [if_neg hne]
      rw [hfind]
      dsimp only
      rw [if_pos hdata]
  · intro w h a rest hdec hne hf hfind hatt hdata
    refine ⟨?_, ?_, ?_⟩
    · rw [hatt]
      exact minAttempt_mem a rest
    · intro b hb
      rw [hatt] at hb
      exact minAttempt_le a rest b hb
    · unfold processImageFile
      rw [if_neg hf]
      unfold generateCompressedBase64
      rw [hdec]
      dsimp only
      rw [if_neg hne]
      rw [hfind]
      dsimp only
      rw [hatt]
      dsimp only
      rw [if_pos hdata]

/-- Concrete file for the C2 witness: too large for the fast path, with
a constant encoder meeting the cap at the first candidate. -/
def exFileC2w : ImageFile :=
  { size := 1000000
    fileType := "image/png"
    directBase64 := "QUJD"
    decoded := some (10, 10)
    encode := fun _ _ _ _ => "QQQQ" }

/-- C2 witness: the ladder branch instantiated at a concrete oversized
file, with the first candidate returned. -/
theorem C2_transcoder_witness :
    ∃ a, (buildAttempts exFileC2w 10 10).find?
        (fun a => a.bytes ≤ MAX_IMAGE_INLINE_BYTES) = some a ∧
      a.bytes ≤ MAX_IMAGE_INLINE_BYTES ∧
      processImageFile exFileC2w = ⟨a.base64, a.mimeType⟩ := by
  have hne : ¬((10 : Nat) = 0 ∨ (10 : Nat) = 0) := by decide
  have hf : ¬ fastPathCond exFileC2w := by
    intro hcontra
    have h1 := hcontra.1
    have : ((1000000 : Nat) : ℚ) ≤ ((900000 : Nat) : ℚ) * (7/10) := h1
    norm_num at this
  refine ⟨_, rfl, ?_⟩
  have h := (C2_transcoder exFileC2w).2.2.1 10 10 _ rfl hne hf rfl (by decide)
  exact ⟨h.1, h.2.2⟩

/-! ## `src/App.jsx` : the attachment upload pipeline

The Firebase SDK calls (`uploadBytes` + `getDownloadURL`) are one
oracle `out : attachment index → bucket → attempt number → outcome`.
The generated storage path (timestamp, index, random suffix) only feeds
that call and is abstracted by the oracle.  Status callbacks, the
upload calls themselves and the back-off waits are recorded in an
event trace. -/

/-- An error thrown by the storage SDK or fetch layer. -/
structure StorageError where
  code : Option String := none
  message : Option String := none
  isTypeError : Bool := false
deriving DecidableEq

/-- `classifyStorageError` classification values. -/
inductive StorageClass
  | cors
  | auth
  | network
  | unknown
deriving DecidableEq

/-- The message indicators of `isLikelyCorsError`. -/
def corsIndicators : List String :=
  ["cors", "no access-control-allow-origin", "blocked by cors policy",
   "preflight", "cross-origin", "permission denied"]

/-- `isLikelyCorsError` (App.jsx lines 541-570). -/
def isLikelyCorsError (e : StorageError) : Bool :=
  let code := toLowerStr (e.code.getD "")
  if strContains code "cors" then true
  else if code = "storage/unauthorized" || code = "storage/retry-limit-exceeded"
  then true
  else
    let message := toLowerStr (e.message.getD "")
    if message = "" then false
    else corsIndicators.any (fun indicator => strContains message indicator)

/-- `classifyStorageError` (App.jsx lines 572-591); the embedded errors
are always present, so the `!error` guard of the source never fires. -/
def classifyStorageError (e : StorageError) : StorageClass :=
  if isLikelyCorsError e then .cors
  else
    let code := toLowerStr (e.code.getD "")
    if strContains code "unauthorized" then .auth
    else if strContains code "retry-limit-exceeded" ||
        strContains code "canceled" || strContains code "timeout" then .network
    else .unknown

/-- The `isFetchError` test of the upload catch block (lines 347-349). -/
def isFetchError (e : StorageError) : Bool :=
  e.isTypeError || (match e.message with
    | some m => strContains m "Failed to fetch"
    | none => false)

/-- The `isCors` test of the upload catch block (lines 350-351). -/
def isCorsFailure (e : StorageError) : Bool :=
  classifyStorageError e == .cors || e.code == some "storage/unauthorized"

/-- The `isRetryable` test of the upload catch block (line 352). -/
def isRetryable (e : StorageError) : Bool :=
  isCorsFailure e || classifyStorageError e == .network || isFetchError e

/-- The callback status values. -/
inductive UpStatus
  | uploading
  | retrying
  | success
  | error
deriving DecidableEq

/-- Trace items: a status callback (with the bucket of its payload when
present), an SDK upload call, or a back-off wait. -/
inductive UpEvent
  | callback (id : String) (status : UpStatus) (bucket : Option String)
  | uploadCall (id : String) (bucket : String) (attempt : Nat)
  | waited (ms : Nat)
deriving DecidableEq

/-- A pending attachment file handle. -/
structure FileModel where
  name : String := ""
  ftype : String := ""
  fsize : Option ℚ := none
deriving DecidableEq

/-- One attachment passed to the uploader. -/
structure AttachmentIn where
  id : Option String := none
  file : Option FileModel := none
  mimeType : Option String := none
  name : Option String := none
deriving DecidableEq

/-- The `{url, mimeType, name, size, bucket}` record pushed on success. -/
structure UploadRecord where
  url : String
  mimeType : String
  name : String
  rsize : Option ℚ
  bucket : String
deriving DecidableEq

/-- Outcome of one `uploadBytes` + `getDownloadURL` round. -/
inductive UploadOutcome
  | success (url : String)
  | failure (e : StorageError)
deriving DecidableEq

def MAX_UPLOAD_RETRIES : Nat := 3

/-- The attempt numbers the `while (attempt < MAX_UPLOAD_RETRIES)` loop
runs with (`attempt` is pre-incremented, so the numbers are 1-based). -/
def UPLOAD_ATTEMPT_NUMBERS : List Nat :=
  (List.range MAX_UPLOAD_RETRIES).map (fun n => n + 1)

/-- Outcome of the per-bucket while loop. -/
inductive BucketOutcome
  | succeeded (url : String)
  | corsNext (e : StorageError)
  | aborted (e : StorageError)
  | loopEnded
deriving DecidableEq

/-- The retry `while` loop for one bucket (App.jsx lines 309-387): one
iteration per attempt number; `uploading` is signalled on the first
attempt, a retryable failure below the retry bound signals `retrying`
and waits 3 seconds, a cors-classified failure at the bound signals
`retrying` and moves to the next bucket, anything else signals `error`
and throws. -/
def attemptLoop (out : Nat → UploadOutcome) (aid bucket : String) :
    List Nat → BucketOutcome × List UpEvent
  | [] => (.loopEnded, [])
  | attempt :: restAttempts =>
    let evs1 := (if attempt = 1
        then [UpEvent.callback aid .uploading (some bucket)] else []) ++
      [UpEvent.uploadCall aid bucket attempt]
    match out attempt with
    | .success url =>
      (.succeeded url, evs1 ++ [UpEvent.callback aid .success (some bucket)])
    | .failure e =>
      if isRetryable e = true ∧ attempt < MAX_UPLOAD_RETRIES then
        let next := attemptLoop out aid bucket restAttempts
        (next.1, evs1 ++ [UpEvent.callback aid .retrying (some bucket),
          UpEvent.waited 3000] ++ next.2)
      else if isCorsFailure e = true then
        (.corsNext e, evs1 ++ [UpEvent.callback aid .retrying (some bucket)])
      else
        (.aborted e, evs1 ++ [UpEvent.callback aid .error (some bucket)])

/-- Outcome of the bucket loop for one attachment. -/
inductive LoopResult
  | success (url : String) (bucket : String)
  | exhausted (lastErr : Option StorageError)
  | thrown (e : StorageError)
deriving DecidableEq

/-- The `for (const bucket of ...)` loop (App.jsx lines 299-398): blank
candidates are skipped; a thrown attempt error is re-signalled as
`error` by the outer per-bucket catch and propagates; a cors exhaustion
carries its last error to the next candidate. -/
def bucketLoop (out : String → Nat → UploadOutcome) (aid : String) :
    List String → Option StorageError → LoopResult × List UpEvent
  | [], lastErr => (.exhausted lastErr, [])
  | b :: rest, lastErr =>
    let trimmedBucket := jsTrim b
    if trimmedBucket = "" then bucketLoop out aid rest lastErr
    else
      match attemptLoop (out trimmedBucket) aid trimmedBucket
          UPLOAD_ATTEMPT_NUMBERS with
      | (.succeeded url, evs) => (.success url trimmedBucket, evs)
      | (.corsNext e, evs) =>
        let next := bucketLoop out aid rest (some e)
        (next.1, evs ++ next.2)
      | (.aborted e, evs) =>
        (.thrown e, evs ++ [UpEvent.callback aid .error (some trimmedBucket)])
      | (.loopEnded, evs) =>
        let next := bucketLoop out aid rest lastErr
        (next.1, evs ++ next.2)

/-- `attachmentId` derivation (App.jsx lines 279-282): the raw id when
it is a non-blank string, else the stringified index. -/
def attachmentIdOf (att : AttachmentIn) (index : Nat) : String :=
  match att.id with
  | some s => if (jsTrim s).length > 0 then s else toString index
  | none => toString index

/-- The attachment MIME derivation (App.jsx lines 289-292). -/
def attachmentMime (att : AttachmentIn) (file : FileModel) : String :=
  match att.mimeType with
  | some m =>
    if (jsTrim m).length > 0 then jsTrim m
    else if file.ftype ≠ "" then file.ftype else "image/jpeg"
  | none => if file.ftype ≠ "" then file.ftype else "image/jpeg"

/-- The synthetic batch error (App.jsx line 405). -/
def syntheticUploadError : StorageError :=
  { message := some "Upload fallito su tutti i bucket disponibili." }

/-- The attachment loop of `uploadAttachmentsToStorage` (lines
276-412): attachments without a file handle are skipped, a success
pushes its record, a thrown error aborts the batch, and an exhausted
bucket list reports `error` once more and throws the last observed
error or the synthetic one. -/
def uploadGo (out : Nat → String → Nat → UploadOutcome)
    (buckets : List String) :
    Nat → List AttachmentIn →
      Except StorageError (List UploadRecord) × List UpEvent
  | _, [] => (.ok [], [])
  | index, att :: rest =>
    match att.file with
    | none => uploadGo out buckets (index + 1) rest
    | some file =>
      let aid := attachmentIdOf att index
      let mime := attachmentMime att file
      match bucketLoop (out index) aid buckets none with
      | (.success url bucket, evs) =>
        let record : UploadRecord :=
          { url := url, mimeType := mime, name := att.name.getD file.name,
            rsize := file.fsize, bucket := bucket }
        let next := uploadGo out buckets (index + 1) rest
        (match next.1 with
         | .ok records => .ok (record :: records)
         | .error e => .error e,
         evs ++ next.2)
      | (.thrown e, evs) => (.error e, evs)
      | (.exhausted lastErr, evs) =>
        match lastErr with
        | some e =>
          (.error e, evs ++ [UpEvent.callback aid .error none])
        | none =>
          (.error syntheticUploadError,
           evs ++ [UpEvent.callback aid .error none])

/-- The deduplicated candidate bucket list (App.jsx lines 488-494 with
the firebase module fallbacks; under the default environment the
primary bucket equals the first fallback, so the set has these two
entries). -/
def DEFAULT_STORAGE_CANDIDATES : List String :=
  ["auiki-x-eataly.firebasestorage.app", "auiki-x-eataly.appspot.com"]

/-- `uploadAttachmentsToStorage` (App.jsx lines 269-413). -/
def uploadAttachmentsToStorage (attachments : List AttachmentIn)
    (out : Nat → String → Nat → UploadOutcome) :
    Except StorageError (List UploadRecord) × List UpEvent :=
  uploadGo out DEFAULT_STORAGE_CANDIDATES 0 attachments

/-- Recognisers for trace items. -/
def isUploadCallEv : UpEvent → Bool
  | .uploadCall _ _ _ => true
  | _ => false

def isWaitEv : UpEvent → Bool
  | .waited _ => true
  | _ => false

def isErrorCbEv : UpEvent → Bool
  | .callback _ .error _ => true
  | _ => false

/-- An event belongs to the attachment with id `aid` (waits carry no
id). -/
def evOwnedBy (aid : String) : UpEvent → Bool
  | .callback i _ _ => i == aid
  | .uploadCall i _ _ => i == aid
  | .waited _ => true

theorem attemptLoop_calls_le (out : Nat → UploadOutcome) (aid bucket : String) :
    ∀ ns : List Nat,
      ((attemptLoop out aid bucket ns).2.countP isUploadCallEv) ≤ ns.length := by
  intro ns
  induction ns with
  | nil => simp [attemptLoop]
  | cons attempt rest ih =>
    simp only [attemptLoop]
    cases out attempt with
    | success url =>
      by_cases h1 : attempt = 1 <;>
        simp [h1, List.countP_append, List.countP_cons, isUploadCallEv]
    | failure e =>
      dsimp only
      by_cases hr : isRetryable e = true ∧ attempt < MAX_UPLOAD_RETRIES
      · rw [if_pos hr]
        by_cases h1 : attempt = 1 <;>
          simp [h1, List.countP_append, List.countP_cons, isUploadCallEv] <;>
          omega
      · rw [if_neg hr]
        by_cases hc : isCorsFailure e = true
        · rw [if_pos hc]
          by_cases h1 : attempt = 1 <;>
            simp [h1, List.countP_append, List.countP_cons, isUploadCallEv]
        · rw [if_neg hc]
          by_cases h1 : attempt = 1 <;>
            simp [h1, List.countP_append, List.countP_cons, isUploadCallEv]

theorem attemptLoop_calls_pos (out : Nat → UploadOutcome) (aid bucket : String)
    (attempt : Nat) (rest : List Nat) :
    1 ≤ ((attemptLoop out aid bucket (attempt :: rest)).2.countP
      isUploadCallEv) := by
  simp only [attemptLoop]
  cases out attempt with
  | success url =>
    by_cases h1 : attempt = 1 <;>
      simp [h1, List.countP_append, List.countP_cons, isUploadCallEv]
  | failure e =>
    dsimp only
    by_cases hr : isRetryable e = true ∧ attempt < MAX_UPLOAD_RETRIES
    · rw [if_pos hr]
      by_cases h1 : attempt = 1 <;>
        simp [h1, List.countP_append, List.countP_cons, isUploadCallEv]
    · rw [if_neg hr]
      by_cases hc : isCorsFailure e = true
      · rw [if_pos hc]
        by_cases h1 : attempt = 1 <;>
          simp [h1, List.countP_append, List.countP_cons, isUploadCallEv]
      · rw [if_neg hc]
        by_cases h1 : attempt = 1 <;>
          simp [h1, List.countP_append, List.countP_cons, isUploadCallEv]

theorem attemptLoop_waits_3000 (out : Nat → UploadOutcome)
    (aid bucket : String) :
    ∀ ns : List Nat, ∀ ev ∈ (attemptLoop out aid bucket ns).2,
      isWaitEv ev = true → ev = .waited 3000 := by
  intro ns
  induction ns with
  | nil =>
    intro ev hev
    simp [attemptLoop] at hev
  | cons attempt rest ih =>
    intro ev hev hw
    simp only [attemptLoop] at hev
    cases hout : out attempt with
    | success url =>
      rw [hout] at hev
      by_cases h1 : attempt = 1 <;>
        simp [h1] at hev <;>
        rcases hev with rfl | rfl | rfl <;>
        simp [isWaitEv] at hw
    | failure e =>
      rw [hout] at hev
      dsimp only at hev
      by_cases hr : isRetryable e = true ∧ attempt < MAX_UPLOAD_RETRIES
      · rw [if_pos hr] at hev
        by_cases h1 : attempt = 1 <;> simp [h1] at hev
        · rcases hev with rfl | rfl | rfl | rfl | hev2
          · simp [isWaitEv] at hw
          · simp [isWaitEv] at hw
          · simp [isWaitEv] at hw
          · rfl
          · exact ih ev hev2 hw
        · rcases hev with rfl | rfl | rfl | hev2
          · simp [isWaitEv] at hw
          · simp [isWaitEv] at hw
          · rfl
          · exact ih ev hev2 hw
      · rw [if_neg hr] at hev
        by_cases hc : isCorsFailure e = true
        · rw [if_pos hc] at hev
          by_cases h1 : attempt = 1 <;>
            simp [h1] at hev <;>
            rcases hev with rfl | rfl | rfl <;>
            simp [isWaitEv] at hw
        · rw [if_neg hc] at hev
          by_cases h1 : attempt = 1 <;>
            simp [h1] at hev <;>
            rcases hev with rfl | rfl | rfl <;>
            simp [isWaitEv] at hw

theorem attemptLoop_error_count (out : Nat → UploadOutcome)
    (aid bucket : String) :
    ∀ ns : List Nat,
      ((attemptLoop out aid bucket ns).2.countP isErrorCbEv) =
        (match (attemptLoop out aid bucket ns).1 with
          | .aborted _ => 1
          | _ => 0) := by
  intro ns
  induction ns with
  | nil => simp [attemptLoop]
  | cons attempt rest ih =>
    simp only [attemptLoop]
    cases out attempt with
    | success url =>
      by_cases h1 : attempt = 1 <;>
        simp [h1, List.countP_append, List.countP_cons, isErrorCbEv]
    | failure e =>
      dsimp only
      by_cases hr : isRetryable e = true ∧ attempt < MAX_UPLOAD_RETRIES
      · rw [if_pos hr]
        by_cases h1 : attempt = 1 <;>
          simp [h1, List.countP_append, List.countP_cons, isErrorCbEv, ih]
      · rw [if_neg hr]
        by_cases hc : isCorsFailure e = true
        · rw [if_pos hc]
          by_cases h1 : attempt = 1 <;>
            simp [h1, List.countP_append, List.countP_cons, isErrorCbEv]
        · rw [if_neg hc]
          by_cases h1 : attempt = 1 <;>
            simp [h1, List.countP_append, List.countP_cons, isErrorCbEv]

theorem attemptLoop_counts_eq (out : Nat → UploadOutcome) (aid bucket : String) :
    ((attemptLoop out aid bucket UPLOAD_ATTEMPT_NUMBERS).2.countP
      isUploadCallEv) =
    ((attemptLoop out aid bucket UPLOAD_ATTEMPT_NUMBERS).2.countP isWaitEv)
      + 1 := by
  have hnums : UPLOAD_ATTEMPT_NUMBERS = [1, 2, 3] := rfl
  rw [hnums]
  simp only [attemptLoop]
  cases out 1 with
  | success url =>
    simp [List.countP_append, List.countP_cons, isUploadCallEv, isWaitEv]
  | failure e1 =>
    dsimp only
    by_cases hr1 : isRetryable e1 = true ∧ 1 < MAX_UPLOAD_RETRIES
    · rw [if_pos hr1]
      cases out 2 with
      | success url =>
        simp [List.countP_append, List.countP_cons, isUploadCallEv, isWaitEv]
      | failure e2 =>
        dsimp only
        by_cases hr2 : isRetryable e2 = true ∧ 2 < MAX_UPLOAD_RETRIES
        · rw [if_pos hr2]
          cases out 3 with
          | success url =>
            simp [List.countP_append, List.countP_cons, isUploadCallEv,
              isWaitEv]
          | failure e3 =>
            dsimp only
            have h3 : ¬(isRetryable e3 = true ∧ 3 < MAX_UPLOAD_RETRIES) :=
              fun h => absurd h.2 (by decide)
            rw [if_neg h3]
            by_cases hc3 : isCorsFailure e3 = true
            · rw [if_pos hc3]
              simp [List.countP_append, List.countP_cons, isUploadCallEv,
                isWaitEv]
            · rw [if_neg hc3]
              simp [List.countP_append, List.countP_cons, isUploadCallEv,
                isWaitEv]
        · rw [if_neg hr2]
          by_cases hc2 : isCorsFailure e2 = true
          · rw [if_pos hc2]
            simp [List.countP_append, List.countP_cons, isUploadCallEv,
              isWaitEv]
          · rw [if_neg hc2]
            simp [List.countP_append, List.countP_cons, isUploadCallEv,
              isWaitEv]
    · rw [if_neg hr1]
      by_cases hc1 : isCorsFailure e1 = true
      · rw [if_pos hc1]
        simp [List.countP_append, List.countP_cons, isUploadCallEv, isWaitEv]
      · rw [if_neg hc1]
        simp [List.countP_append, List.countP_cons, isUploadCallEv, isWaitEv]

theorem attemptLoop_retry_iff (out : Nat → UploadOutcome) (aid bucket : String)
    (e : StorageError) (hout : out 1 = .failure e) :
    (2 ≤ ((attemptLoop out aid bucket UPLOAD_ATTEMPT_NUMBERS).2.countP
      isUploadCallEv)) ↔ isRetryable e = true := by
  have hnums : UPLOAD_ATTEMPT_NUMBERS = [1, 2, 3] := rfl
  rw [hnums]
  simp only [attemptLoop]
  rw [hout]
  dsimp only
  by_cases hr : isRetryable e = true
  · rw [if_pos ⟨hr, by decide⟩]
    simp only [hr, iff_true]
    cases out 2 with
    | success url =>
      simp [List.countP_append, List.countP_cons, isUploadCallEv]
    | failure e2 =>
      dsimp only
      by_cases hr2 : isRetryable e2 = true ∧ 2 < MAX_UPLOAD_RETRIES
      · rw [if_pos hr2]
        cases out 3 with
        | success url =>
          simp [List.countP_append, List.countP_cons, isUploadCallEv]
        | failure e3 =>
          dsimp only
          have h3 : ¬(isRetryable e3 = true ∧ 3 < MAX_UPLOAD_RETRIES) :=
            fun h => absurd h.2 (by decide)
          rw [if_neg h3]
          by_cases hc3 : isCorsFailure e3 = true
          · rw [if_pos hc3]
            simp [List.countP_append, List.countP_cons, isUploadCallEv]
          · rw [if_neg hc3]
            simp [List.countP_append, List.countP_cons, isUploadCallEv]
      · rw [if_neg hr2]
        by_cases hc2 : isCorsFailure e2 = true
        · rw [if_pos hc2]
          simp [List.countP_append, List.countP_cons, isUploadCallEv]
        · rw [if_neg hc2]
          simp [List.countP_append, List.countP_cons, isUploadCallEv]
  · rw [if_neg (fun hand => hr hand.1)]
    simp only [hr, iff_false]
    by_cases hc : isCorsFailure e = true
    · rw [if_pos hc]
      simp [List.countP_append, List.countP_cons, isUploadCallEv]
    · rw [if_neg hc]
      simp [List.countP_append, List.countP_cons, isUploadCallEv]

theorem bucketLoop_error_count (out : String → Nat → UploadOutcome)
    (aid : String) :
    ∀ (buckets : List String) (lastErr : Option StorageError),
      ((bucketLoop out aid buckets lastErr).2.countP isErrorCbEv) =
        (match (bucketLoop out aid buckets lastErr).1 with
          | .thrown _ => 2
          | _ => 0) := by
  intro buckets
  induction buckets with
  | nil => intro lastErr; simp [bucketLoop]
  | cons b rest ih =>
    intro lastErr
    simp only [bucketLoop]
    by_cases hb : jsTrim b = ""
    · rw [if_pos hb]
      exact ih lastErr
    · rw [if_neg hb]
      have hcount := attemptLoop_error_count (out (jsTrim b)) aid (jsTrim b)
        UPLOAD_ATTEMPT_NUMBERS
      cases hA : attemptLoop (out (jsTrim b)) aid (jsTrim b)
          UPLOAD_ATTEMPT_NUMBERS with
      | mk r evs =>
        rw [hA] at hcount
        dsimp only at hcount
        cases r with
        | succeeded url =>
          dsimp only
          exact hcount
        | corsNext e =>
          dsimp only
          rw [List.countP_append, hcount, ih (some e)]
          simp
        | aborted e =>
          dsimp only
          rw [List.countP_append, hcount]
          simp [isErrorCbEv]
        | loopEnded =>
          dsimp only
          rw [List.countP_append, hcount, ih lastErr]
          simp

theorem bucketLoop_cors_step (out : String → Nat → UploadOutcome)
    (aid b : String) (rest : List String) (lastErr : Option StorageError)
    (e : StorageError) (evs : List UpEvent) (hb : jsTrim b ≠ "")
    (hA : attemptLoop (out (jsTrim b)) aid (jsTrim b) UPLOAD_ATTEMPT_NUMBERS =
      (.corsNext e, evs)) :
    bucketLoop out aid (b :: rest) lastErr =
      ((bucketLoop out aid rest (some e)).1,
       evs ++ (bucketLoop out aid rest (some e)).2) := by
  simp only [bucketLoop]
  rw [if_neg hb, hA]

theorem bucketLoop_abort_step (out : String → Nat → UploadOutcome)
    (aid b : String) (rest : List String) (lastErr : Option StorageError)
    (e : StorageError) (evs : List UpEvent) (hb : jsTrim b ≠ "")
    (hA : attemptLoop (out (jsTrim b)) aid (jsTrim b) UPLOAD_ATTEMPT_NUMBERS =
      (.aborted e, evs)) :
    bucketLoop out aid (b :: rest) lastErr =
      (.thrown e, evs ++ [UpEvent.callback aid .error (some (jsTrim b))]) := by
  simp only [bucketLoop]
  rw [if_neg hb, hA]

theorem attemptLoop_owned (out : Nat → UploadOutcome) (aid bucket : String) :
    ∀ ns : List Nat, ∀ ev ∈ (attemptLoop out aid bucket ns).2,
      evOwnedBy aid ev = true := by
  intro ns
  induction ns with
  | nil => simp [attemptLoop]
  | cons attempt rest ih =>
    simp only [attemptLoop]
    cases out attempt with
    | success url =>
      by_cases h1 : attempt = 1 <;> simp [h1, evOwnedBy]
    | failure e =>
      dsimp only
      by_cases hr : isRetryable e = true ∧ attempt < MAX_UPLOAD_RETRIES
      · rw [if_pos hr]
        by_cases h1 : attempt = 1 <;>
          · simp [h1, evOwnedBy]
            exact fun a ha => ih a ha
      · rw [if_neg hr]
        by_cases hc : isCorsFailure e = true
        · rw [if_pos hc]
          by_cases h1 : attempt = 1 <;> simp [h1, evOwnedBy]
        · rw [if_neg hc]
          by_cases h1 : attempt = 1 <;> simp [h1, evOwnedBy]

theorem bucketLoop_owned (out : String → Nat → UploadOutcome) (aid : String) :
    ∀ (buckets : List String) (lastErr : Option StorageError),
      ∀ ev ∈ (bucketLoop out aid buckets lastErr).2,
        evOwnedBy aid ev = true := by
  intro buckets
  induction buckets with
  | nil =>
    intro lastErr ev hev
    simp [bucketLoop] at hev
  | cons b rest ih =>
    intro lastErr
    simp only [bucketLoop]
    by_cases hb : jsTrim b = ""
    · rw [if_pos hb]
      exact ih lastErr
    · rw [if_neg hb]
      have hA := attemptLoop_owned (out (jsTrim b)) aid (jsTrim b)
        UPLOAD_ATTEMPT_NUMBERS
      cases hAL : attemptLoop (out (jsTrim b)) aid (jsTrim b)
          UPLOAD_ATTEMPT_NUMBERS with
      | mk r evs =>
        rw [hAL] at hA
        dsimp only at hA
        cases r with
        | succeeded url =>
          dsimp only
          exact hA
        | corsNext e =>
          dsimp only
          intro ev hev
          rcases List.mem_append.mp hev with h | h
          · exact hA ev h
          · exact ih (some e) ev h
        | aborted e =>
          dsimp only
          intro ev hev
          rcases List.mem_append.mp hev with h | h
          · exact hA ev h
          · rw [List.mem_singleton.mp h]
            simp [evOwnedBy]
        | loopEnded =>
          dsimp only
          intro ev hev
          rcases List.mem_append.mp hev with h | h
          · exact hA ev h
          · exact ih lastErr ev h

theorem getLast?_cons_ne_none {α : Type} (a : α) (l : List α) :
    (a :: l).getLast? ≠ none := by
  induction l generalizing a with
  | nil => simp [List.getLast?]
  | cons c tail ih =>
    rw [List.getLast?_cons_cons]
    exact ih c

theorem attemptLoop_all_cors (out : Nat → UploadOutcome) (aid bucket : String)
    (h : ∀ n, ∃ e, out n = .failure e ∧ isCorsFailure e = true) :
    ∃ e3, attemptLoop out aid bucket UPLOAD_ATTEMPT_NUMBERS =
        (.corsNext e3,
         (attemptLoop out aid bucket UPLOAD_ATTEMPT_NUMBERS).2) ∧
      out 3 = .failure e3 := by
  obtain ⟨e1, he1, hc1⟩ := h 1
  obtain ⟨e2, he2, hc2⟩ := h 2
  obtain ⟨e3, he3, hc3⟩ := h 3
  have hr1 : isRetryable e1 = true := by
    unfold isRetryable
    rw [hc1]
    rfl
  have hr2 : isRetryable e2 = true := by
    unfold isRetryable
    rw [hc2]
    rfl
  refine ⟨e3, ?_, he3⟩
  have hfst : (attemptLoop out aid bucket UPLOAD_ATTEMPT_NUMBERS).1 =
      .corsNext e3 := by
    have hnums : UPLOAD_ATTEMPT_NUMBERS = [1, 2, 3] := rfl
    rw [hnums]
    simp only [attemptLoop]
    rw [he1]
    dsimp only
    rw [if_pos ⟨hr1, by decide⟩]
    rw [he2]
    dsimp only
    rw [if_pos ⟨hr2, by decide⟩]
    rw [he3]
    dsimp only
    have h3 : ¬(isRetryable e3 = true ∧ 3 < MAX_UPLOAD_RETRIES) :=
      fun hand => absurd hand.2 (by decide)
    rw [if_neg h3, if_pos hc3]
  exact Prod.ext hfst rfl

theorem bucketLoop_all_cors (out : String → Nat → UploadOutcome) (aid : String)
    (h : ∀ b n, ∃ e, out b n = .failure e ∧ isCorsFailure e = true) :
    ∀ (buckets : List String) (lastErr : Option StorageError),
      ∃ lastE, (bucketLoop out aid buckets lastErr).1 = .exhausted lastE ∧
        ((buckets.filter (fun x => !(jsTrim x == ""))).getLast? = none →
          lastE = lastErr) ∧
        (∀ bLast,
          (buckets.filter (fun x => !(jsTrim x == ""))).getLast? = some bLast →
          ∃ e, out (jsTrim bLast) 3 = .failure e ∧ lastE = some e) := by
  intro buckets
  induction buckets with
  | nil =>
    intro lastErr
    refine ⟨lastErr, rfl, fun _ => rfl, ?_⟩
    intro bLast hlast
    simp [List.filter_nil] at hlast
  | cons b rest ih =>
    intro lastErr
    by_cases hb : jsTrim b = ""
    · obtain ⟨lastE, h1, h2, h3⟩ := ih lastErr
      have hfil : (b :: rest).filter (fun x => !(jsTrim x == "")) =
          rest.filter (fun x => !(jsTrim x == "")) := by
        rw [List.filter_cons]
        simp [hb]
      refine ⟨lastE, ?_, ?_, ?_⟩
      · simp only [bucketLoop]
        rw [if_pos hb]
        exact h1
      · rw [hfil]
        exact h2
      · rw [hfil]
        exact h3
    · obtain ⟨e3, hA, he3⟩ := attemptLoop_all_cors (out (jsTrim b)) aid
        (jsTrim b) (h (jsTrim b))
      obtain ⟨lastE, h1, h2, h3⟩ := ih (some e3)
      have hfil : (b :: rest).filter (fun x => !(jsTrim x == "")) =
          b :: rest.filter (fun x => !(jsTrim x == "")) := by
        rw [List.filter_cons]
        simp [hb]
      refine ⟨lastE, ?_, ?_, ?_⟩
      · rw [bucketLoop_cors_step out aid b rest lastErr e3 _ hb hA]
        exact h1
      · rw [hfil]
        intro hnone
        exact absurd hnone (getLast?_cons_ne_none b _)
      · rw [hfil]
        intro bLast hlast
        cases hf : rest.filter (fun x => !(jsTrim x == "")) with
        | nil =>
          rw [hf, List.getLast?_singleton] at hlast
          injection hlast with hlast
          subst hlast
          have hnone : (rest.filter (fun x => !(jsTrim x == ""))).getLast? =
              none := by
            rw [hf]
            rfl
          exact ⟨e3, he3, h2 hnone⟩
        | cons c tail =>
          rw [hf, List.getLast?_cons_cons] at hlast
          refine h3 bLast ?_
          rw [hf]
          exact hlast

theorem uploadGo_ok_errors (out : Nat → String → Nat → UploadOutcome)
    (buckets : List String) :
    ∀ (atts : List AttachmentIn) (idx : Nat)
      (recs : List UploadRecord) (evs : List UpEvent),
      uploadGo out buckets idx atts = (.ok recs, evs) →
      evs.countP isErrorCbEv = 0 := by
  intro atts
  induction atts with
  | nil =>
    intro idx recs evs h
    simp only [uploadGo] at h
    injection h with h1 h2
    rw [← h2]
    rfl
  | cons att rest ih =>
    intro idx recs evs h
    simp only [uploadGo] at h
    cases hfile : att.file with
    | none =>
      rw [hfile] at h
      exact ih (idx + 1) recs evs h
    | some file =>
      rw [hfile] at h
      dsimp only at h
      cases hB : bucketLoop (out idx) (attachmentIdOf att idx) buckets none with
      | mk r bevs =>
        rw [hB] at h
        have hbcount := bucketLoop_error_count (out idx)
          (attachmentIdOf att idx) buckets none
        rw [hB] at hbcount
        dsimp only at hbcount
        cases r with
        | success url bucket =>
          dsimp only at h
          cases hN : (uploadGo out buckets (idx + 1) rest).1 with
          | ok recs2 =>
            rw [hN] at h
            injection h with h1 h2
            rw [← h2, List.countP_append, hbcount]
            have hnext : uploadGo out buckets (idx + 1) rest =
                (.ok recs2, (uploadGo out buckets (idx + 1) rest).2) :=
              Prod.ext hN rfl
            rw [ih (idx + 1) recs2 _ hnext]
          | error e =>
            rw [hN] at h
            injection h with h1 h2
            cases h1
        | exhausted lastErr =>
          dsimp only at h
          cases lastErr with
          | some e =>
            injection h with h1 h2
            cases h1
          | none =>
            injection h with h1 h2
            cases h1
        | thrown e =>
          dsimp only at h
          injection h with h1 h2
          cases h1

theorem uploadGo_append (out : Nat → String → Nat → UploadOutcome)
    (buckets : List String) :
    ∀ (xs : List AttachmentIn) (ys : List AttachmentIn) (idx : Nat)
      (recs : List UploadRecord) (evs : List UpEvent),
      uploadGo out buckets idx xs = (.ok recs, evs) →
      uploadGo out buckets idx (xs ++ ys) =
        ((match (uploadGo out buckets (idx + xs.length) ys).1 with
          | .ok recs2 => .ok (recs ++ recs2)
          | .error e => .error e),
         evs ++ (uploadGo out buckets (idx + xs.length) ys).2) := by
  intro xs
  induction xs with
  | nil =>
    intro ys idx recs evs h
    simp only [uploadGo] at h
    cases h
    simp only [List.nil_append, List.length_nil, Nat.add_zero]
    cases hN : (uploadGo out buckets idx ys).1 with
    | ok recs2 =>
      simp only [List.nil_append]
      exact Prod.ext hN rfl
    | error e =>
      simp only [List.nil_append]
      exact Prod.ext hN rfl
  | cons a xs ih =>
    intro ys idx recs evs h
    rw [List.cons_append]
    simp only [uploadGo] at h ⊢
    cases hfile : a.file with
    | none =>
      rw [hfile] at h
      dsimp only at h ⊢
      have hstep := ih ys (idx + 1) recs evs h
      have hlen : idx + 1 + xs.length = idx + (xs.length + 1) := by omega
      rw [hlen] at hstep
      simpa [List.length_cons] using hstep
    | some file =>
      rw [hfile] at h
      dsimp only at h ⊢
      cases hB : bucketLoop (out idx) (attachmentIdOf a idx) buckets none with
      | mk r bevs =>
        rw [hB] at h
        cases r with
        | success url bucket =>
          dsimp only at h ⊢
          cases hN : (uploadGo out buckets (idx + 1) xs).1 with
          | ok recs2 =>
            rw [hN] at h
            injection h with h1 h2
            injection h1 with h1
            subst h1
            subst h2
            have hnext : uploadGo out buckets (idx + 1) xs =
                (.ok recs2, (uploadGo out buckets (idx + 1) xs).2) :=
              Prod.ext hN rfl
            have hstep := ih ys (idx + 1) recs2 _ hnext
            rw [hstep]
            have hlen : idx + 1 + xs.length = idx + (xs.length + 1) := by omega
            rw [hlen]
            cases hM : (uploadGo out buckets (idx + (xs.length + 1)) ys).1 with
            | ok recs3 =>
              simp [hM, List.append_assoc]
            | error e =>
              simp [hM, List.append_assoc]
          | error e =>
            rw [hN] at h
            injection h with h1 h2
            cases h1
        | exhausted lastErr =>
          dsimp only at h
          cases lastErr with
          | some e =>
            injection h with h1 h2
            cases h1
          | none =>
            injection h with h1 h2
            cases h1
        | thrown e =>
          dsimp only at h
          injection h with h1 h2
          cases h1

/-- C7 amended: per bucket there are at most 3 upload attempts; every
back-off wait is the fixed 3 seconds and there is exactly one wait per
retry (attempts = waits + 1); a first-attempt failure leads to a second
attempt exactly when `isRetryable` holds — i.e. when it is
cors-classified (including the `storage/unauthorized` code),
network-classified, or a fetch-type error (a TypeError or a message
containing "Failed to fetch") even though the latter is classified
`unknown`; after exhausting a bucket, a cors-classified failure moves
on to the next candidate bucket, while a non-retryable failure is
re-signalled as `error` and thrown without touching further buckets. -/
theorem C7_retry_policy :
    (∀ (out : Nat → UploadOutcome) (aid bucket : String),
      ((attemptLoop out aid bucket UPLOAD_ATTEMPT_NUMBERS).2.countP
        isUploadCallEv) ≤ MAX_UPLOAD_RETRIES) ∧
    (∀ (out : Nat → UploadOutcome) (aid bucket : String),
      ∀ ev ∈ (attemptLoop out aid bucket UPLOAD_ATTEMPT_NUMBERS).2,
        isWaitEv ev = true → ev = .waited 3000) ∧
    (∀ (out : Nat → UploadOutcome) (aid bucket : String),
      ((attemptLoop out aid bucket UPLOAD_ATTEMPT_NUMBERS).2.countP
        isUploadCallEv) =
      ((attemptLoop out aid bucket UPLOAD_ATTEMPT_NUMBERS).2.countP isWaitEv)
        + 1) ∧
    (∀ (out : Nat → UploadOutcome) (aid bucket : String) (e : StorageError),
      out 1 = .failure e →
      ((2 ≤ ((attemptLoop out aid bucket UPLOAD_ATTEMPT_NUMBERS).2.countP
        isUploadCallEv)) ↔ isRetryable e = true)) ∧
    (∀ (out : String → Nat → UploadOutcome) (aid b : String)
      (rest : List String) (lastErr : Option StorageError) (e : StorageError)
      (evs : List UpEvent), jsTrim b ≠ "" →
      attemptLoop (out (jsTrim b)) aid (jsTrim b) UPLOAD_ATTEMPT_NUMBERS =
        (.corsNext e, evs) →
      bucketLoop out aid (b :: rest) lastErr =
        ((bucketLoop out aid rest (some e)).1,
         evs ++ (bucketLoop out aid rest (some e)).2)) ∧
    (∀ (out : String → Nat → UploadOutcome) (aid b : String)
      (rest : List String) (lastErr : Option StorageError) (e : StorageError)
      (evs : List UpEvent), jsTrim b ≠ "" →
      attemptLoop (out (jsTrim b)) aid (jsTrim b) UPLOAD_ATTEMPT_NUMBERS =
        (.aborted e, evs) →
      bucketLoop out aid (b :: rest) lastErr =
        (.thrown e, evs ++ [UpEvent.callback aid .error (some (jsTrim b))])) := by
  refine ⟨?_, ?_, ?_, ?_, ?_, ?_⟩
  · intro out aid bucket
    have h := attemptLoop_calls_le out aid bucket UPLOAD_ATTEMPT_NUMBERS
    have hlen : UPLOAD_ATTEMPT_NUMBERS.length = MAX_UPLOAD_RETRIES := rfl
    rw [hlen] at h
    exact h
  · exact fun out aid bucket => attemptLoop_waits_3000 out aid bucket _
  · exact fun out aid bucket => attemptLoop_counts_eq out aid bucket
  · exact fun out aid bucket e h => attemptLoop_retry_iff out aid bucket e h
  · exact fun out aid b rest lastErr e evs hb hA =>
      bucketLoop_cors_step out aid b rest lastErr e evs hb hA
  · exact fun out aid b rest lastErr e evs hb hA =>
      bucketLoop_abort_step out aid b rest lastErr e evs hb hA

/-- A fetch-layer error: a TypeError with the generic fetch message. -/
def fetchErrC7 : StorageError :=
  { message := some "Failed to fetch", isTypeError := true }

/-- C7 counterexample: a fetch-type failure is classified `unknown`,
yet the uploader retries it (a second upload attempt happens), so it is
false that only cors / auth-adjacent / network classified failures are
retried and that unknown failures abort immediately. -/
theorem C7_counterexample :
    classifyStorageError fetchErrC7 = .unknown ∧
    isRetryable fetchErrC7 = true ∧
    ((attemptLoop (fun n => if n = 1 then .failure fetchErrC7
        else .success "u") "0" "b" UPLOAD_ATTEMPT_NUMBERS).2.countP
      isUploadCallEv) = 2 := by
  decide

/-- A terminal error with no code, no fetch signature. -/
def abortErrC7 : StorageError := { message := some "boom" }

/-- C7 witness: the abort clause of the amended policy instantiated at
a concrete non-retryable error with a second candidate bucket that is
never touched. -/
theorem C7_retry_policy_witness :
    bucketLoop (fun _ _ => .failure abortErrC7) "0" ["b", "c"] none =
      (.thrown abortErrC7,
       [UpEvent.callback "0" .uploading (some "b"),
        UpEvent.uploadCall "0" "b" 1,
        UpEvent.callback "0" .error (some "b"),
        UpEvent.callback "0" .error (some "b")]) := by
  have h := C7_retry_policy
  exact h.2.2.2.2.2 (fun _ _ => .failure abortErrC7) "0" "b" ["c"] none
    abortErrC7
    [UpEvent.callback "0" .uploading (some "b"),
     UpEvent.uploadCall "0" "b" 1,
     UpEvent.callback "0" .error (some "b")]
    (by decide) (by decide)

instance {e a : Type} [DecidableEq e] [DecidableEq a] :
    DecidableEq (Except e a) := fun x y =>
  match x, y with
  | .ok v, .ok w =>
    if h : v = w then isTrue (by rw [h])
    else isFalse (by intro hc; cases hc; exact h rfl)
  | .error v, .error w =>
    if h : v = w then isTrue (by rw [h])
    else isFalse (by intro hc; cases hc; exact h rfl)
  | .ok _, .error _ => isFalse (by intro hc; cases hc)
  | .error _, .ok _ => isFalse (by intro hc; cases hc)

/-- A cors-classified storage error. -/
def corsErrC6 : StorageError := { code := some "storage/unauthorized" }

/-- First batch attachment for the C6 counterexample (uploads fine). -/
def attOkC6 : AttachmentIn := { file := some {} }

/-- Second batch attachment for the C6 counterexample (all buckets
cors-fail). -/
def attBadC6 : AttachmentIn := { file := some {} }

/-- Oracle for the C6 counterexample: attachment 0 succeeds at once,
attachment 1 always cors-fails. -/
def outC6 : Nat → String → Nat → UploadOutcome :=
  fun idx _ _ => if idx = 0 then .success "https://u" else .failure corsErrC6

/-- C6 counterexample: in a batch whose second attachment exhausts every
bucket, the run throws, the first attachment WAS attempted (an upload
call for id "0" is in the trace), yet no `error` status is ever
reported for it — so it is false that every attempted attachment is
reported with status error. -/
theorem C6_counterexample :
    (uploadAttachmentsToStorage [attOkC6, attBadC6] outC6).1 =
      .error corsErrC6 ∧
    (uploadAttachmentsToStorage [attOkC6, attBadC6] outC6).2.any
      (fun ev =>
        ev == UpEvent.uploadCall "0" "auiki-x-eataly.firebasestorage.app" 1)
      = true ∧
    (uploadAttachmentsToStorage [attOkC6, attBadC6] outC6).2.countP
      (fun ev => match ev with
        | UpEvent.callback "0" .error _ => true
        | _ => false) = 0 := by
  decide

/-- C6 amended: when some attachment exhausts every candidate bucket
without success (each attempt failing cors-classified) after a prefix
of the batch uploaded cleanly, the whole batch fails: the uploader
throws the last observed error of that attachment — the failure of the
final (third) attempt on the last non-blank candidate bucket — or the
synthetic error when no bucket was usable; exactly one `error` status
is reported across the whole run and it belongs to the exhausted
attachment; the trace after the clean prefix is exactly the exhausted
attachment's bucket-loop trace plus its final `error` report, every
event of it belongs to that attachment, so the previously uploaded
attachments keep their earlier (non-error) reports and no later
attachment is ever attempted. -/
theorem C6_batch_failure (out : Nat → String → Nat → UploadOutcome)
    (buckets : List String) (prefixAtts : List AttachmentIn)
    (att : AttachmentIn) (file : FileModel) (rest : List AttachmentIn)
    (recs0 : List UploadRecord) (evs0 : List UpEvent)
    (hpre : uploadGo out buckets 0 prefixAtts = (.ok recs0, evs0))
    (hfile : att.file = some file)
    (hcors : ∀ b n, ∃ e, out prefixAtts.length b n = .failure e ∧
      isCorsFailure e = true) :
    ∃ eFinal evsA,
      uploadGo out buckets 0 (prefixAtts ++ att :: rest) =
        (.error eFinal, evs0 ++ evsA) ∧
      evsA = (bucketLoop (out prefixAtts.length)
          (attachmentIdOf att prefixAtts.length) buckets none).2 ++
        [UpEvent.callback (attachmentIdOf att prefixAtts.length)
          .error none] ∧
      (evs0 ++ evsA).countP isErrorCbEv = 1 ∧
      UpEvent.callback (attachmentIdOf att prefixAtts.length) .error none
        ∈ evsA ∧
      (∀ ev ∈ evsA,
        evOwnedBy (attachmentIdOf att prefixAtts.length) ev = true) ∧
      ((buckets.filter (fun x => !(jsTrim x == ""))).getLast? = none →
        eFinal = syntheticUploadError) ∧
      (∀ bLast,
        (buckets.filter (fun x => !(jsTrim x == ""))).getLast? = some bLast →
        out prefixAtts.length (jsTrim bLast) 3 = .failure eFinal) := by
  obtain ⟨lastE, hres, hlastnone, hlastsome⟩ :=
    bucketLoop_all_cors (out prefixAtts.length)
      (attachmentIdOf att prefixAtts.length) hcors buckets none
  have hBL : bucketLoop (out prefixAtts.length)
      (attachmentIdOf att prefixAtts.length) buckets none =
      (.exhausted lastE,
       (bucketLoop (out prefixAtts.length)
         (attachmentIdOf att prefixAtts.length) buckets none).2) :=
    Prod.ext hres rfl
  have hbcount := bucketLoop_error_count (out prefixAtts.length)
    (attachmentIdOf att prefixAtts.length) buckets none
  rw [hres] at hbcount
  have hpcount := uploadGo_ok_errors out buckets prefixAtts 0 recs0 evs0 hpre
  have happ := uploadGo_append out buckets prefixAtts (att :: rest) 0
    recs0 evs0 hpre
  rw [Nat.zero_add] at happ
  have howned : ∀ ev ∈ (bucketLoop (out prefixAtts.length)
      (attachmentIdOf att prefixAtts.length) buckets none).2 ++
      [UpEvent.callback (attachmentIdOf att prefixAtts.length) .error none],
      evOwnedBy (attachmentIdOf att prefixAtts.length) ev = true := by
    intro ev hev
    rcases List.mem_append.mp hev with h | h
    · exact bucketLoop_owned (out prefixAtts.length)
        (attachmentIdOf att prefixAtts.length) buckets none ev h
    · rw [List.mem_singleton.mp h]
      simp [evOwnedBy]
  cases hE : lastE with
  | some e =>
    have hstep : uploadGo out buckets prefixAtts.length (att :: rest) =
        (.error e,
         (bucketLoop (out prefixAtts.length)
           (attachmentIdOf att prefixAtts.length) buckets none).2 ++
         [UpEvent.callback (attachmentIdOf att prefixAtts.length)
           .error none]) := by
      simp only [uploadGo]
      rw [hfile]
      dsimp only
      rw [hBL, hE]
    rw [hstep] at happ
    dsimp only at happ
    refine ⟨e, _, happ, rfl, ?_, ?_, howned, ?_, ?_⟩
    · rw [List.countP_append, hpcount, List.countP_append, hbcount]
      simp [isErrorCbEv]
    · exact List.mem_append_right _ (List.mem_singleton.mpr rfl)
    · intro hnone
      have hcontra := hlastnone hnone
      rw [hE] at hcontra
      exact Option.noConfusion hcontra
    · intro bLast hlast
      obtain ⟨e2, hout, hsome⟩ := hlastsome bLast hlast
      rw [hE] at hsome
      injection hsome with hsome
      rw [← hsome] at hout
      exact hout
  | none =>
    have hstep : uploadGo out buckets prefixAtts.length (att :: rest) =
        (.error syntheticUploadError,
         (bucketLoop (out prefixAtts.length)
           (attachmentIdOf att prefixAtts.length) buckets none).2 ++
         [UpEvent.callback (attachmentIdOf att prefixAtts.length)
           .error none]) := by
      simp only [uploadGo]
      rw [hfile]
      dsimp only
      rw [hBL, hE]
    rw [hstep] at happ
    dsimp only at happ
    refine ⟨syntheticUploadError, _, happ, rfl, ?_, ?_, howned,
      fun _ => rfl, ?_⟩
    · rw [List.countP_append, hpcount, List.countP_append, hbcount]
      simp [isErrorCbEv]
    · exact List.mem_append_right _ (List.mem_singleton.mpr rfl)
    · intro bLast hlast
      obtain ⟨e2, hout, hsome⟩ := hlastsome bLast hlast
      rw [hE] at hsome
      exact Option.noConfusion hsome

/-- Attachment for the C6 witness. -/
def attBadC6w : AttachmentIn := { file := some {} }

/-- C6 witness: a single-attachment batch whose every bucket attempt
cors-fails, instantiating the amendment with an empty prefix. -/
theorem C6_batch_failure_witness :
    ∃ eFinal evsA,
      uploadGo (fun _ _ _ => .failure corsErrC6) DEFAULT_STORAGE_CANDIDATES 0
        ([] ++ attBadC6w :: []) = (.error eFinal, [] ++ evsA) ∧
      evsA = (bucketLoop
          (fun (_ : String) (_ : Nat) => UploadOutcome.failure corsErrC6)
          (attachmentIdOf attBadC6w 0) DEFAULT_STORAGE_CANDIDATES none).2 ++
        [UpEvent.callback (attachmentIdOf attBadC6w 0) .error none] ∧
      ([] ++ evsA : List UpEvent).countP isErrorCbEv = 1 ∧
      UpEvent.callback (attachmentIdOf attBadC6w 0) .error none ∈ evsA ∧
      (∀ ev ∈ evsA, evOwnedBy (attachmentIdOf attBadC6w 0) ev = true) ∧
      ((DEFAULT_STORAGE_CANDIDATES.filter
          (fun x => !(jsTrim x == ""))).getLast? = none →
        eFinal = syntheticUploadError) ∧
      (∀ bLast,
        (DEFAULT_STORAGE_CANDIDATES.filter
          (fun x => !(jsTrim x == ""))).getLast? = some bLast →
        (fun (_ : String) (_ : Nat) => UploadOutcome.failure corsErrC6)
          (jsTrim bLast) 3 = UploadOutcome.failure eFinal) := by
  have h := C6_batch_failure (fun _ _ _ => .failure corsErrC6)
    DEFAULT_STORAGE_CANDIDATES [] attBadC6w {} [] [] [] rfl rfl
    (fun b n => ⟨corsErrC6, rfl, by decide⟩)
  exact h

/-! ## `src/App.jsx` : the send-message pipeline prefix (C5)

`handleSendMessage` is modelled up to effect granularity: every
network-touching stage (the CORS reachability probe, the storage
upload batch, each document-store write, the model invocation) is one
trace effect, with oracles for their outcomes.  The claim under test
concerns the inline-size guard, which runs before any of them. -/

def MAX_FIRESTORE_INLINE_BYTES : Nat := 900000

/-- The primary bucket (firebase module: the configured bucket or the
first fallback under the default environment). -/
def primaryStorageBucket : String := "auiki-x-eataly.firebasestorage.app"

inductive SendEffect
  | corsProbe (bucket : String)
  | storageUpload
  | firestoreWrite
  | modelInvoke
deriving DecidableEq

inductive SendError
  | notAuthenticated
  | imagesTooLarge
  | corsBlocked
  | uploadFailed (e : StorageError)
  | chatCreateFailed
  | apiError (status : Nat)
deriving DecidableEq

/-- Arguments of one send. -/
structure SendArgs where
  text : String := ""
  images : List JsImage := []
  attachments : List AttachmentIn := []
  parts : List MsgPart := []

/-- Environment outcomes for one send. -/
structure SendOracles where
  user : Option String := none
  corsOk : Bool := true
  upload : Except StorageError (List UploadRecord) := .ok []
  chatId : Option String := some "chat"
  callOk : Bool := true

/-- `attachmentsWithFile` filter (App.jsx lines 974-982). -/
def attachmentsWithFile (atts : List AttachmentIn) : List AttachmentIn :=
  atts.filter (fun a => a.file.isSome)

/-- The inline byte estimate reduce (App.jsx lines 986-989). -/
def inlineBytesOf (images : List CollectedImg) : Nat :=
  images.foldl (fun sum image => sum + estimateBase64Bytes image.data) 0

/-- `derivedContent` (App.jsx lines 961-970). -/
def derivedContentOf (args : SendArgs) : String :=
  let contentFromProp := jsTrim args.text
  if contentFromProp ≠ "" then contentFromProp
  else
    match args.parts.find? (fun p => p.type == some "text" &&
        (match p.text with
          | some t => jsTrim t ≠ ""
          | none => false)) with
    | some p => jsTrim (p.text.getD "")
    | none => ""

/-- `handleSendMessage` (App.jsx lines 949-1234) at effect granularity:
the guards run in source order; a throw carries no further effects. -/
def handleSendMessage (args : SendArgs) (o : SendOracles) :
    Except SendError Unit × List SendEffect :=
  match o.user with
  | none => (.error .notAuthenticated, [])
  | some _ =>
    let derivedContent := derivedContentOf args
    let sanitizedImages := collectImages args.images args.parts
    let withFile := attachmentsWithFile args.attachments
    let inlineBytes := inlineBytesOf sanitizedImages
    if inlineBytes > MAX_FIRESTORE_INLINE_BYTES then
      (.error .imagesTooLarge, [])
    else
      let uploadStage : Except SendError Unit × List SendEffect :=
        if withFile.length > 0 then
          if o.corsOk = false then
            (.error .corsBlocked, [SendEffect.corsProbe primaryStorageBucket])
          else
            match o.upload with
            | .error e =>
              (.error (.uploadFailed e),
               [SendEffect.corsProbe primaryStorageBucket,
                SendEffect.storageUpload])
            | .ok _ =>
              (.ok (),
               [SendEffect.corsProbe primaryStorageBucket,
                SendEffect.storageUpload])
        else (.ok (), [])
      match uploadStage.1 with
      | .error err => (.error err, uploadStage.2)
      | .ok _ =>
        if derivedContent = "" ∧ sanitizedImages.length = 0 then
          (.ok (), uploadStage.2)
        else
          match o.chatId with
          | none => (.error .chatCreateFailed, uploadStage.2)
          | some _ =>
            if o.callOk then
              (.ok (), uploadStage.2 ++
                [SendEffect.firestoreWrite, SendEffect.modelInvoke,
                 SendEffect.firestoreWrite])
            else
              (.error (.apiError 500), uploadStage.2 ++
                [SendEffect.firestoreWrite, SendEffect.modelInvoke])

/-- C5: when the summed inline estimate exceeds the cap, the send
throws before any network effect — no probe, no upload, no store
write, no model call. -/
theorem C5_inline_cap (args : SendArgs) (o : SendOracles) (uid : String)
    (huser : o.user = some uid)
    (hcap : inlineBytesOf (collectImages args.images args.parts) >
      MAX_FIRESTORE_INLINE_BYTES) :
    handleSendMessage args o = (.error .imagesTooLarge, []) := by
  unfold handleSendMessage
  rw [huser]
  dsimp only
  rw [if_pos hcap]

/-! ### Concrete oversized send for the C5 witness

The image data is a 1,200,004-character base64 string, handled
symbolically through `List.replicate` so that no megabyte-sized string
is ever evaluated. -/

theorem dropWhile_replicate_of_false (p : Char → Bool) (c : Char) (n : Nat)
    (h : p c = false) :
    (List.replicate n c).dropWhile p = List.replicate n c := by
  cases n with
  | zero => rfl
  | succ m =>
    rw [List.replicate_succ, List.dropWhile_cons, h]
    simp

theorem trimChars_replicateA (n : Nat) :
    trimChars (List.replicate n 'A') = List.replicate n 'A' := by
  unfold trimChars
  rw [dropWhile_replicate_of_false isSpaceChar 'A' n (by decide),
    List.reverse_replicate, dropWhile_replicate_of_false isSpaceChar 'A' n (by decide),
    List.reverse_replicate]

def exDataC5 : String := ⟨List.replicate 1200004 'A'⟩

theorem exDataC5_length : exDataC5.length = 1200004 := by
  unfold exDataC5
  rw [String.length, List.length_replicate]

theorem jsTrim_exDataC5 : jsTrim exDataC5 = exDataC5 := by
  unfold jsTrim exDataC5
  dsimp only
  exact congrArg String.mk (trimChars_replicateA 1200004)

theorem stripTrailingEq_exDataC5 : stripTrailingEq exDataC5 = exDataC5 := by
  unfold stripTrailingEq exDataC5
  dsimp only
  rw [List.reverse_replicate,
    dropWhile_replicate_of_false (fun c => c = '=') 'A' 1200004 (by decide),
    List.reverse_replicate]

theorem exDataC5_ne_empty : exDataC5 ≠ "" := by
  intro h
  have hlen := congrArg String.length h
  rw [exDataC5_length] at hlen
  exact absurd hlen (by norm_num)

theorem estimateBase64Bytes_exDataC5 : estimateBase64Bytes exDataC5 = 900003 := by
  unfold estimateBase64Bytes
  rw [exDataC5_length, if_neg (by norm_num), stripTrailingEq_exDataC5, exDataC5_length]

def exImgC5 : JsImage := { data := some exDataC5 }

def exArgsC5 : SendArgs := { images := [exImgC5] }

def exOraclesC5 : SendOracles := { user := some "uid" }

theorem jsTrim_imagePng : jsTrim "image/png" = "image/png" := by decide

theorem normalizeImage_exImgC5 :
    normalizeImage exImgC5 =
      { data := some exDataC5, mimeType := some "image/png",
        name := some "", size := none } := by
  unfold normalizeImage exImgC5
  dsimp only [Option.getD]
  rw [jsTrim_exDataC5]
  rw [if_neg (by simp : ¬(("" : String) ≠ "")), if_pos exDataC5_ne_empty]

def exCollC5 : CollectedImg :=
  { data := exDataC5, mimeType := "image/png", name := "", size := none }

theorem collectImages_exC5 :
    collectImages exArgsC5.images exArgsC5.parts = [exCollC5] := by
  show collectImages [exImgC5] [] = _
  unfold collectImages normalizeImages exCollC5
  simp [normalizeImage_exImgC5, jsTrim_exDataC5, exDataC5_ne_empty, exDataC5_length,
    jsTrim_imagePng, collectStep]

theorem inlineBytes_exC5 :
    inlineBytesOf (collectImages exArgsC5.images exArgsC5.parts) = 900003 := by
  rw [collectImages_exC5]
  unfold inlineBytesOf
  rw [List.foldl_cons, List.foldl_nil]
  rw [show exCollC5.data = exDataC5 from rfl]
  rw [estimateBase64Bytes_exDataC5]

/-- Witness for `C5_inline_cap` at a 1,200,004-character inline image:
the estimate is 900,003 bytes, above the 900,000 cap, and the send
returns the size error with an empty effect trace. -/
theorem C5_inline_cap_witness :
    handleSendMessage exArgsC5 exOraclesC5 =
      (Except.error SendError.imagesTooLarge, []) := by
  refine C5_inline_cap exArgsC5 exOraclesC5 "uid" rfl ?_
  rw [inlineBytes_exC5]
  norm_num [MAX_FIRESTORE_INLINE_BYTES]
